import Mathlib

/-!
The command `cmd/diff` of tidb-binlog: a shallow embedding of `main.go`

The command compares the databases behind two connection URLs and prints a
verdict.  Everything the file defines is embedded here:

* `dbConf`, `errParse`, `dbConf.fromString`, `dbConf.fullPath`
* `equalStrings`, `showDatabases`, `compareOneDB`, `parseConfig`, `main`

Go strings are modelled by Lean strings.  The only bytes the program inspects
are ASCII (`@`, `:`, `,`, sign and digits), and an ASCII byte never occurs
inside a multi-byte UTF-8 sequence, so splitting and parsing characters agrees
with splitting and parsing bytes.  Go's `int` is taken to be 64 bits wide
(`intSize`), as on every platform the tool is built for.

The standard library functions the file calls (`strings.Split`,
`strconv.ParseInt`, the `%s`/`%d` verbs of `fmt.Sprintf`) are embedded from
their Go definitions, restricted to the arguments the file passes.  The call
`flag.Parse()` is represented by what it makes of the command line
(`CommandLine`): it stores the flag values, or ends the process with status 0
(`-h`) or 2 (a rejected command line).  The database driver,
`diff.New(..).Equal()`, `diff.ShowDatabases` and `errors.ErrorStack` are
external: they are the fields of `Extern`, acting on an arbitrary world state.
Standard output is recorded as the sequence of `fmt.Println` operands
(`stdout`) and as the text they make up (`stdoutText`).
-/

namespace DiffCmd

/-! ## `strings.Split` -/

/-- Worker of `Split`: `cur` holds, reversed, the piece read so far. -/
def splitAux (sep : Char) : List Char → List Char → List (List Char)
  | [], cur => [cur.reverse]
  | c :: cs, cur =>
    if c = sep then cur.reverse :: splitAux sep cs []
    else splitAux sep cs (c :: cur)

/-- Go `strings.Split(s, sep)` for a one-byte separator: the pieces of `s`
between consecutive occurrences of `sep`; always at least one piece. -/
def Split (s : String) (sep : Char) : List String :=
  (splitAux sep s.data []).map String.mk

/-! ## `strconv.ParseUint`, `strconv.ParseInt`, decimal formatting -/

/-- The two sentinel errors a `*strconv.NumError` can wrap. -/
inductive NumErr
  | ErrSyntax
  | ErrRange
deriving DecidableEq, Repr

/-- Go `1<<64 - 1`. -/
def maxUint64 : Nat := 2 ^ 64 - 1

/-- Go `lower(c) = c | ('x' - 'X')`. -/
def lower (c : Nat) : Nat := c ||| 0x20

/-- The digit loop of `strconv.ParseUint` for an explicit base `2 ≤ base ≤ 36`
(no underscores, which Go accepts only for base 0).  `n` is the `uint64`
accumulator; the result is Go's pair `(value, err)`. -/
def parseUintLoop (base cutoff maxVal : Nat) : List Char → Nat → Nat × Option NumErr
  | [], n => (n, none)
  | c :: cs, n =>
    let b := c.toNat
    let d : Option Nat :=
      if 48 ≤ b ∧ b ≤ 57 then some (b - 48)
      else if 97 ≤ lower b ∧ lower b ≤ 122 then some (lower b - 97 + 10)
      else none
    match d with
    | none => (0, some NumErr.ErrSyntax)
    | some d =>
      if d ≥ base then (0, some NumErr.ErrSyntax)
      else if n ≥ cutoff then (maxVal, some NumErr.ErrRange)
      else
        let n0 := (n * base) % 2 ^ 64
        let n1 := (n0 + d) % 2 ^ 64
        if n1 < n0 ∨ n1 > maxVal then (maxVal, some NumErr.ErrRange)
        else parseUintLoop base cutoff maxVal cs n1

/-- Go `strconv.ParseUint(s, base, bitSize)` for `2 ≤ base ≤ 36`. -/
def ParseUint (s : List Char) (base bitSize : Nat) : Nat × Option NumErr :=
  if s = [] then (0, some NumErr.ErrSyntax)
  else parseUintLoop base (maxUint64 / base + 1) (2 ^ bitSize - 1) s 0

/-- Two's-complement reinterpretation of an integer in `w` bits
(Go `int64(x)` for `w = 64`). -/
def wrapInt (w : Nat) (x : Int) : Int :=
  (x + 2 ^ (w - 1)) % 2 ^ w - 2 ^ (w - 1)

/-- The first step of `ParseInt`, "pick off leading sign": whether the text is
negated, and the text after the sign. -/
def pickSign : List Char → Bool × List Char
  | '+' :: r => (false, r)
  | '-' :: r => (true, r)
  | r => (false, r)

/-- Go `strconv.ParseInt(s, base, bitSize)` for `2 ≤ base ≤ 36` and
`bitSize ≠ 0`. -/
def ParseInt (s : String) (base bitSize : Nat) : Int × Option NumErr :=
  if s.data = [] then (0, some NumErr.ErrSyntax)
  else
    let neg := (pickSign s.data).1
    let r := ParseUint (pickSign s.data).2 base bitSize
    let un := r.1
    if r.2 = some NumErr.ErrSyntax then (0, some NumErr.ErrSyntax)
    else
      let cutoff : Nat := 2 ^ (bitSize - 1)
      if !neg && decide (un ≥ cutoff) then ((cutoff : Int) - 1, some NumErr.ErrRange)
      else if neg && decide (un > cutoff) then (-(cutoff : Int), some NumErr.ErrRange)
      else
        let n := wrapInt bitSize un
        (if neg then wrapInt bitSize (-n) else n, none)

/-- The digit loop of Go's `formatBits` in base 10: peel off the last digit
while `u ≥ 10`.  The first argument bounds the iterations; `u` itself is always
enough, since every iteration divides `u` by ten. -/
def formatBits : Nat → Nat → List Char → List Char
  | 0, u, acc => Char.ofNat (48 + u % 10) :: acc
  | fuel + 1, u, acc =>
    if u ≥ 10 then formatBits fuel (u / 10) (Char.ofNat (48 + u % 10) :: acc)
    else Char.ofNat (48 + u) :: acc

/-- Base-10 text of a signed integer, as written by `strconv.FormatInt(n, 10)`
and the `%d` verb: a `-` for negative values, then the digits of the magnitude
taken as a `uint64`. -/
def decimal (n : Int) : String :=
  let u : Nat := (if n < 0 then -n else n).toNat % 2 ^ 64
  String.mk (if n < 0 then '-' :: formatBits u u [] else formatBits u u [])

/-! ## `dbConf` and `fromString` -/

/-- Go error values the program handles. -/
inductive GoError
  /-- Value of `errors.New(msg)` -/
  | new (msg : String)
  /-- An error produced by `database/sql`, the driver or package `diff` -/
  | ext (msg : String)
  /-- Value of `errors.Trace(err)` -/
  | trace (err : GoError)
deriving DecidableEq, Repr

/-- The `Error()` method. -/
def GoError.Error : GoError → String
  | GoError.new msg => msg
  | GoError.ext msg => msg
  | GoError.trace err => err.Error

/-- Width of Go's `int`. -/
def intSize : Nat := 64

structure dbConf where
  user : String := ""
  password : String := ""
  host : String := ""
  port : Int := 0
deriving DecidableEq, Repr

def errParse : GoError := GoError.new "format: user[:password]@host:port"

/-- The method `(dbcf *dbConf) fromString(url)`: the receiver after the call and
the returned error (`none` is `nil`). -/
def dbConf.fromString (dbcf : dbConf) (url : String) : dbConf × Option GoError :=
  match Split url '@' with
  | [tmp0, tmp1] =>
    let part1 := Split tmp0 ':'
    let sw : Option dbConf :=
      match part1 with
      | [u] => some { dbcf with user := u }
      | [u, p] => some { dbcf with user := u, password := p }
      | _ => none
    match sw with
    | none => (dbcf, some errParse)
    | some dbcf =>
      match Split tmp1 ':' with
      | [part20, part21] =>
        let pr := ParseInt part21 10 64
        if pr.2 ≠ none then (dbcf, some errParse)
        else ({ dbcf with host := part20, port := wrapInt intSize pr.1 }, none)
      | _ => (dbcf, some errParse)
  | _ => (dbcf, some errParse)

/-! ## `fmt.Sprintf`, `fullPath` -/

/-- An operand of `fmt.Sprintf`. -/
inductive FmtArg
  | str (s : String)
  | int (n : Int)

/-- Expansion of a format: `%s` consumes a string operand, `%d` an integer
operand; every other character is copied.  (Only well-typed uses are embedded:
both formats of the program have exactly the operands their verbs ask for.) -/
def sprintfAux : List Char → List FmtArg → List Char
  | [], _ => []
  | '%' :: 's' :: fmt, FmtArg.str s :: args => s.data ++ sprintfAux fmt args
  | '%' :: 'd' :: fmt, FmtArg.int n :: args => (decimal n).data ++ sprintfAux fmt args
  | c :: fmt, args => c :: sprintfAux fmt args

def Sprintf (format : String) (args : List FmtArg) : String :=
  String.mk (sprintfAux format.data args)

def dbConf.fullPath (dbcf : dbConf) (dbName : String) : String :=
  Sprintf "%s:%s@tcp(%s:%d)/%s?timeout=30s"
    [FmtArg.str dbcf.user, FmtArg.str dbcf.password, FmtArg.str dbcf.host,
     FmtArg.int dbcf.port, FmtArg.str dbName]

/-! ## `equalStrings` -/

/-- Ways the embedded index loop can fail to produce a value. -/
inductive Fault
  /-- A slice was indexed at or beyond its length (a Go run-time panic) -/
  | indexOutOfRange
  /-- The iteration bound of the embedding was exhausted -/
  | outOfFuel
deriving DecidableEq, Repr

/-- The loop `for i := 0; i < len(str1); i++` of `equalStrings`, started at
index `i`; every slice read is bounds-checked. -/
def equalStringsLoop (str1 str2 : List String) : Nat → Nat → Except Fault Bool
  | 0, _ => Except.error Fault.outOfFuel
  | fuel + 1, i =>
    if i < str1.length then
      match str1[i]?, str2[i]? with
      | some x, some y =>
        if x ≠ y then Except.ok false else equalStringsLoop str1 str2 fuel (i + 1)
      | _, _ => Except.error Fault.indexOutOfRange
    else Except.ok true

def equalStrings (str1 str2 : List String) : Except Fault Bool :=
  if str1.length ≠ str2.length then Except.ok false
  else equalStringsLoop str1 str2 (str1.length + 1) 0

/-! ## The process: flags, external calls, trace -/

/-- The package-level flag variables, with the defaults of `init`. -/
structure Flags where
  databases : String := ""
  all : Bool := false
  url1 : String := "root@127.0.0.1:4000"
  url2 : String := ""
  logLevel : String := "info"
deriving DecidableEq, Repr

/-- What `flag.Parse()` makes of the command line.  Either it stores the flag
values and returns, or it ends the process itself after writing to standard
error: with status 0 when `-h` or `-help` is given (Go 1.15 and later), with
status 2 when it rejects the command line (an undefined flag, a bad value). -/
inductive CommandLine
  | parsed (flags : Flags)
  | help
  | rejected
deriving DecidableEq, Repr

/-- The flag variables as `flag.Parse()` leaves them: the parsed values, or the
defaults of `init` when it stores none. -/
def CommandLine.flags : CommandLine → Flags
  | CommandLine.parsed flags => flags
  | _ => {}

/-- A `*sql.DB` handle. -/
abbrev DB := Nat

/-- The external collaborators, each a transition on an arbitrary world state
`σ`, so that the outcome of a call may depend on everything that happened
before it. -/
structure Extern (σ : Type) where
  /-- Call of `sql.Open("mysql", dsn)` -/
  sqlOpen : String → σ → Except GoError DB × σ
  /-- Call of `db.Close()` -/
  Close : DB → σ → σ
  /-- Call of `db.Ping()` -/
  Ping : DB → σ → Option GoError × σ
  /-- Call of `diff.ShowDatabases(db)` -/
  ShowDatabases : DB → σ → Except GoError (List String) × σ
  /-- Call of `diff.New(nil, db1, db2).Equal()` -/
  Equal : DB → DB → σ → Except GoError Bool × σ
  /-- Call of `log.SetLevelByString(level)` -/
  SetLevelByString : String → σ → σ
  /-- Result of `errors.ErrorStack(err)` -/
  ErrorStack : GoError → String

/-- What an observer of the process sees, in order. -/
inductive Event
  /-- One `fmt.Println` to standard output (the text without its newline) -/
  | println (s : String)
  /-- One `flag.PrintDefaults()` (usage text, to standard error) -/
  | printDefaults
  /-- The message and usage text `flag.Parse()` writes to standard error before
  it ends the process -/
  | flagUsage
  /-- Entry into `showDatabases` -/
  | showDatabases (dbcf : dbConf)
  /-- Entry into `compareOneDB` -/
  | compareOneDB (dbName : String)
deriving DecidableEq, Repr

/-- State of a run: the external world and the events so far, oldest first. -/
structure Run (σ : Type) where
  world : σ
  trace : List Event

def Run.log {σ : Type} (st : Run σ) (e : Event) : Run σ :=
  { st with trace := st.trace ++ [e] }

def Run.println {σ : Type} (st : Run σ) (s : String) : Run σ :=
  st.log (Event.println s)

/-- How a run ends other than by `main` returning. -/
inductive Halt
  /-- Call of `os.Exit(code)` -/
  | exit (code : Int)
  /-- A run-time panic -/
  | panic (f : Fault)
deriving DecidableEq, Repr

/-- Exit status seen by the parent process: 0 when `main` returns, the low
eight bits of the argument of `os.Exit`, 2 after a panic. -/
def exitStatus : Option Halt → Nat
  | none => 0
  | some (Halt.exit code) => (code % 256).toNat
  | some (Halt.panic _) => 2

/-- The lines written to standard output. -/
def stdout : List Event → List String
  | [] => []
  | Event.println s :: es => s :: stdout es
  | _ :: es => stdout es

/-- The databases `compareOneDB` was called for, in call order. -/
def compared : List Event → List String
  | [] => []
  | Event.compareOneDB d :: es => d :: compared es
  | _ :: es => compared es

/-- The configurations `showDatabases` was called with, in call order. -/
def listed : List Event → List dbConf
  | [] => []
  | Event.showDatabases c :: es => c :: listed es
  | _ :: es => listed es

/-! ## `showDatabases`, `compareOneDB`, `parseConfig`, `main` -/

/-- The data source name `src` built by `showDatabases`. -/
def showDatabasesSrc (dbcf : dbConf) : String :=
  Sprintf "%s@tcp(%s:%d)/?timeout=30s"
    [FmtArg.str dbcf.user, FmtArg.str dbcf.host, FmtArg.int dbcf.port]

/-- The function `showDatabases`.  `os.Exit` does not run the deferred
`db.Close()`. -/
def showDatabases {σ : Type} (ext : Extern σ) (dbcf : dbConf) (st : Run σ) :
    Except Halt (List String) × Run σ :=
  let st := st.log (Event.showDatabases dbcf)
  let src := showDatabasesSrc dbcf
  match ext.sqlOpen src st.world with
  | (Except.error err, w) =>
    (Except.error (Halt.exit (-1)),
      Run.println { st with world := w } ("database config error: " ++ err.Error))
  | (Except.ok db, w) =>
    match ext.ShowDatabases db w with
    | (Except.error err, w) =>
      (Except.error (Halt.exit (-1)), Run.println { st with world := w } (ext.ErrorStack err))
    | (Except.ok ret, w) => (Except.ok ret, { st with world := ext.Close db w })

/-- The function `compareOneDB`: the pair `(eq, err)` it returns and the state
after the deferred `Close` calls. -/
def compareOneDB {σ : Type} (ext : Extern σ) (dbc1 dbc2 : dbConf) (dbName : String)
    (st : Run σ) : (Bool × Option GoError) × Run σ :=
  let st := st.log (Event.compareOneDB dbName)
  match ext.sqlOpen (dbc1.fullPath dbName) st.world with
  | (Except.error err, w) => ((false, some (GoError.trace err)), { st with world := w })
  | (Except.ok db1, w) =>
    match ext.sqlOpen (dbc2.fullPath dbName) w with
    | (Except.error err, w) =>
      ((false, some (GoError.trace err)), { st with world := ext.Close db1 w })
    | (Except.ok db2, w) =>
      match ext.Ping db1 w with
      | (some err1, w) =>
        ((false, some (GoError.trace err1)),
          { st with world := ext.Close db1 (ext.Close db2 w) })
      | (none, w) =>
        match ext.Ping db2 w with
        | (some err1, w) =>
          ((false, some (GoError.trace err1)),
            { st with world := ext.Close db1 (ext.Close db2 w) })
        | (none, w) =>
          match ext.Equal db1 db2 w with
          | (Except.error err, w) =>
            ((false, some (GoError.trace err)),
              { st with world := ext.Close db1 (ext.Close db2 w) })
          | (Except.ok eq, w) =>
            ((eq, none), { st with world := ext.Close db1 (ext.Close db2 w) })

/-- The function `parseConfig`, called with the two `dbConf` of `main`.  It
starts with `flag.Parse()`, which may end the process; after that, either the
process halts, or the call returns the database names together with the two
configurations it filled in. -/
def parseConfig {σ : Type} (ext : Extern σ) (cmd : CommandLine) (db1 db2 : dbConf)
    (st : Run σ) : Except Halt (dbConf × dbConf × List String) × Run σ :=
  match cmd with
  | CommandLine.rejected => (Except.error (Halt.exit 2), st.log Event.flagUsage)
  | CommandLine.help => (Except.error (Halt.exit 0), st.log Event.flagUsage)
  | CommandLine.parsed flags =>
    if flags.url1 = "" ∨ flags.url2 = "" then
      (Except.error (Halt.exit (-1)), st.log Event.printDefaults)
    else
      match db1.fromString flags.url1 with
      | (_, some err) =>
        (Except.error (Halt.exit (-1)), st.println ("url1 error: " ++ err.Error))
      | (db1, none) =>
        match db2.fromString flags.url2 with
        | (_, some err) =>
          (Except.error (Halt.exit (-1)), st.println ("url2 error: " ++ err.Error))
        | (db2, none) =>
          if flags.all then
            match showDatabases ext db1 st with
            | (Except.error h, st) => (Except.error h, st)
            | (Except.ok dbNames1, st) =>
              match showDatabases ext db2 st with
              | (Except.error h, st) => (Except.error h, st)
              | (Except.ok dbNames2, st) =>
                match equalStrings dbNames1 dbNames2 with
                | Except.error f => (Except.error (Halt.panic f), st)
                | Except.ok eq =>
                  if !eq then (Except.error (Halt.exit 0), st.println "false")
                  else (Except.ok (db1, db2, dbNames1), st)
          else if flags.databases = "" then
            (Except.error (Halt.exit (-1)), st.log Event.printDefaults)
          else (Except.ok (db1, db2, Split flags.databases ','), st)

/-- The loop of `main` over `dbs`, followed by the final `fmt.Println("true")`
when the loop runs to its end. -/
def mainLoop {σ : Type} (ext : Extern σ) (db1 db2 : dbConf) : List String → Run σ → Run σ
  | [], st => st.println "true"
  | dbName :: dbs, st =>
    match compareOneDB ext db1 db2 dbName st with
    | ((_, some err), st) => st.println (ext.ErrorStack err)
    | ((eq, none), st) =>
      if !eq then st.println "false" else mainLoop ext db1 db2 dbs st

/-- The function `main`, run in world `w` on a command line: how the process
ends (`none`: `main` returned) and the final state. -/
def main {σ : Type} (ext : Extern σ) (cmd : CommandLine) (w : σ) : Option Halt × Run σ :=
  match parseConfig ext cmd {} {} { world := w, trace := [] } with
  | (Except.error h, st) => (some h, st)
  | (Except.ok (db1, db2, dbs), st) =>
    (none, mainLoop ext db1 db2 dbs
      { st with world := ext.SetLevelByString cmd.flags.logLevel st.world })

/-! ## A concrete world for examples -/

/-- A scripted world: the state counts the `sql.Open` calls made so far; the
`k`-th handle lists `lists k`, pings with `pings k`, and comparing handles
`a` and `b` yields `equal a`. -/
def scripted (lists : Nat → Except GoError (List String)) (pings : Nat → Option GoError)
    (equal : Nat → Except GoError Bool) : Extern Nat where
  sqlOpen := fun _ n => (Except.ok n, n + 1)
  Close := fun _ n => n
  Ping := fun db n => (pings db, n)
  ShowDatabases := fun db n => (lists db, n)
  Equal := fun a _ n => (equal a, n)
  SetLevelByString := fun _ n => n
  ErrorStack := fun err => err.Error ++ "\nmain.go: "

/-! ## Notions of the specification: literals, well-formed URLs, run outcomes -/

/-- An ASCII decimal digit. -/
def IsDigit (c : Char) : Prop := '0'.toNat ≤ c.toNat ∧ c.toNat ≤ '9'.toNat

instance (c : Char) : Decidable (IsDigit c) := by unfold IsDigit; exact inferInstance

/-- The number a run of digits denotes when read after the number `n`. -/
def digitsValue (n : Nat) (cs : List Char) : Nat :=
  cs.foldl (fun a c => 10 * a + (c.toNat - '0'.toNat)) n

/-- The text `s` is a base-10 signed 64-bit integer literal denoting `v`: an
optional sign `+` or `-`, then one or more decimal digits, whose signed value
`v` lies between `-2 ^ 63` and `2 ^ 63 - 1`. -/
def Int64Literal (s : String) (v : Int) : Prop :=
  ∃ sign digits : List Char, s.data = sign ++ digits ∧
    (sign = [] ∨ sign = ['+'] ∨ sign = ['-']) ∧
    digits ≠ [] ∧ (∀ c ∈ digits, IsDigit c) ∧
    v = (if sign = ['-'] then -(digitsValue 0 digits : Int) else (digitsValue 0 digits : Int)) ∧
    -2 ^ 63 ≤ v ∧ v ≤ 2 ^ 63 - 1

/-- The form `user[:password]@host:port`, in the words of the specification:
exactly one `@`; at most one `:` before it; exactly one `:` after it; and the
text after that `:` is a base-10 signed 64-bit integer literal. -/
def WellFormedURL (url : String) : Prop :=
  ∃ before after : String, url = before ++ "@" ++ after ∧
    '@' ∉ before.data ∧ '@' ∉ after.data ∧
    before.data.count ':' ≤ 1 ∧
    ∃ host port : String, after = host ++ ":" ++ port ∧
      ':' ∉ host.data ∧ ':' ∉ port.data ∧ ∃ v, Int64Literal port v

/-- The comparisons of `dbs` one after the other, none skipped: the pair
`(eq, err)` each call returns, and the state after the last one. -/
def runAll {σ : Type} (ext : Extern σ) (db1 db2 : dbConf) :
    List String → Run σ → List (Bool × Option GoError) × Run σ
  | [], st => ([], st)
  | dbName :: dbs, st =>
    let r := compareOneDB ext db1 db2 dbName st
    let rs := runAll ext db1 db2 dbs r.2
    (r.1 :: rs.1, rs.2)

/-! ## Configuration errors -/

/-- A configuration error, in the words of the specification: a missing URL, a
URL that `fromString` rejects, or no database selection (neither
`-all-databases` nor a non-empty `-databases`). -/
def ConfigError (flags : Flags) : Prop :=
  flags.url1 = "" ∨ flags.url2 = "" ∨
  (({} : dbConf).fromString flags.url1).2 ≠ none ∨
  (({} : dbConf).fromString flags.url2).2 ≠ none ∨
  (flags.all = false ∧ flags.databases = "")

instance (flags : Flags) : Decidable (ConfigError flags) := by
  unfold ConfigError; exact inferInstance

/-- The one event a run with a configuration error produces. -/
def IsConfigDiagnostic (e : Event) : Prop :=
  e = Event.printDefaults ∨
  e = Event.println "url1 error: format: user[:password]@host:port" ∨
  e = Event.println "url2 error: format: user[:password]@host:port"

/-- The diagnostic of a run with a configuration error: the usage text for a
missing URL or selection, the `url1 error` or `url2 error` line for the first
rejected URL. -/
def configDiagnostic (flags : Flags) : Event :=
  if flags.url1 = "" ∨ flags.url2 = "" then Event.printDefaults
  else if (({} : dbConf).fromString flags.url1).2 ≠ none then
    Event.println "url1 error: format: user[:password]@host:port"
  else if (({} : dbConf).fromString flags.url2).2 ≠ none then
    Event.println "url2 error: format: user[:password]@host:port"
  else Event.printDefaults

/-- The configuration `parseConfig` derives from `-url1`. -/
def conf1 (flags : Flags) : dbConf := (({} : dbConf).fromString flags.url1).1

/-- The configuration `parseConfig` derives from `-url2`. -/
def conf2 (flags : Flags) : dbConf := (({} : dbConf).fromString flags.url2).1

/-! ## Outcomes of the external calls -/

/-- While `showDatabases` lists the side `c` in world `w`, the call
`sql.Open("mysql", src)` returns the error `err`. -/
def OpenFails {σ : Type} (ext : Extern σ) (c : dbConf) (w : σ) (err : GoError) : Prop :=
  ∃ w1, ext.sqlOpen (showDatabasesSrc c) w = (Except.error err, w1)

/-- While `showDatabases` lists the side `c` in world `w`, `sql.Open` succeeds
and the call `diff.ShowDatabases(db)` returns the error `err`. -/
def ListFails {σ : Type} (ext : Extern σ) (c : dbConf) (w : σ) (err : GoError) : Prop :=
  ∃ db w1 w2, ext.sqlOpen (showDatabasesSrc c) w = (Except.ok db, w1) ∧
    ext.ShowDatabases db w1 = (Except.error err, w2)

/-- While `showDatabases` lists the side `c` in world `w`, `sql.Open` and
`diff.ShowDatabases` both succeed: the names are `names`, and `w1` is the world
after the deferred `db.Close()`. -/
def ListsNames {σ : Type} (ext : Extern σ) (c : dbConf) (w : σ) (names : List String)
    (w1 : σ) : Prop :=
  ∃ db w2 w3, ext.sqlOpen (showDatabasesSrc c) w = (Except.ok db, w2) ∧
    ext.ShowDatabases db w2 = (Except.ok names, w3) ∧ w1 = ext.Close db w3

/-- In `-all-databases` mode `sql.Open` returns `err` for the first side, or the
first side is listed and `sql.Open` returns `err` for the second. -/
def ListingOpenFails {σ : Type} (ext : Extern σ) (flags : Flags) (w : σ) (err : GoError) :
    Prop :=
  OpenFails ext (conf1 flags) w err ∨
  ∃ names w1, ListsNames ext (conf1 flags) w names w1 ∧ OpenFails ext (conf2 flags) w1 err

/-- In `-all-databases` mode `diff.ShowDatabases` returns `err` for the first
side, or the first side is listed and it returns `err` for the second. -/
def ListingListFails {σ : Type} (ext : Extern σ) (flags : Flags) (w : σ) (err : GoError) :
    Prop :=
  ListFails ext (conf1 flags) w err ∨
  ∃ names w1, ListsNames ext (conf1 flags) w names w1 ∧ ListFails ext (conf2 flags) w1 err

/-- In `-all-databases` mode, opening or listing the databases of one of the
two sides fails: `sql.Open` or `diff.ShowDatabases` returns an error. -/
def ListingFails {σ : Type} (ext : Extern σ) (flags : Flags) (w : σ) : Prop :=
  ∃ err, ListingOpenFails ext flags w err ∨ ListingListFails ext flags w err

/-- In `-all-databases` mode, `diff.ShowDatabases` returns a list for each side
and the two lists differ. -/
def ListsDiffer {σ : Type} (ext : Extern σ) (flags : Flags) (w : σ) : Prop :=
  ∃ l1 w1 l2 w2, ListsNames ext (conf1 flags) w l1 w1 ∧
    ListsNames ext (conf2 flags) w1 l2 w2 ∧ l1 ≠ l2

/-- The comparison of database `d`, started in world `w`, fails with `err`: the
first of `sql.Open` (side one, side two), `Ping` (side one, side two) and
`Equal` not to succeed returns `err`. -/
def CompareFails {σ : Type} (ext : Extern σ) (c1 c2 : dbConf) (d : String) (w : σ)
    (err : GoError) : Prop :=
  (∃ w1, ext.sqlOpen (c1.fullPath d) w = (Except.error err, w1)) ∨
  (∃ db1 w1 w2, ext.sqlOpen (c1.fullPath d) w = (Except.ok db1, w1) ∧
    ext.sqlOpen (c2.fullPath d) w1 = (Except.error err, w2)) ∨
  (∃ db1 w1 db2 w2 w3, ext.sqlOpen (c1.fullPath d) w = (Except.ok db1, w1) ∧
    ext.sqlOpen (c2.fullPath d) w1 = (Except.ok db2, w2) ∧
    ext.Ping db1 w2 = (some err, w3)) ∨
  (∃ db1 w1 db2 w2 w3 w4, ext.sqlOpen (c1.fullPath d) w = (Except.ok db1, w1) ∧
    ext.sqlOpen (c2.fullPath d) w1 = (Except.ok db2, w2) ∧
    ext.Ping db1 w2 = (none, w3) ∧ ext.Ping db2 w3 = (some err, w4)) ∨
  (∃ db1 w1 db2 w2 w3 w4 w5, ext.sqlOpen (c1.fullPath d) w = (Except.ok db1, w1) ∧
    ext.sqlOpen (c2.fullPath d) w1 = (Except.ok db2, w2) ∧
    ext.Ping db1 w2 = (none, w3) ∧ ext.Ping db2 w3 = (none, w4) ∧
    ext.Equal db1 db2 w4 = (Except.error err, w5))

/-- The comparison of database `d`, started in world `w`, goes through: both
`sql.Open` and both `Ping` succeed and `Equal` returns `eq`. -/
def CompareYields {σ : Type} (ext : Extern σ) (c1 c2 : dbConf) (d : String) (w : σ)
    (eq : Bool) : Prop :=
  ∃ db1 w1 db2 w2 w3 w4 w5, ext.sqlOpen (c1.fullPath d) w = (Except.ok db1, w1) ∧
    ext.sqlOpen (c2.fullPath d) w1 = (Except.ok db2, w2) ∧
    ext.Ping db1 w2 = (none, w3) ∧ ext.Ping db2 w3 = (none, w4) ∧
    ext.Equal db1 db2 w4 = (Except.ok eq, w5)

/-! ## Standard output as text -/

/-- The text `fmt.Println` writes for each of the given operands in turn: the
operand followed by a newline. -/
def unlines : List String → String
  | [] => ""
  | s :: r => s ++ "\n" ++ unlines r

/-- The bytes written to standard output. -/
def stdoutText (t : List Event) : String := unlines (stdout t)

/-- The lines of a text: the pieces between newlines, without the empty piece
after a final newline. -/
def textLines (s : String) : List String :=
  if (Split s '\n').getLast? = some "" then (Split s '\n').dropLast else Split s '\n'

/-- The verdict lines of a text: its lines that read `true` or `false`. -/
def verdictLinesOf (s : String) : List String :=
  (textLines s).filter (fun l => decide (l = "true" ∨ l = "false"))

/-- The verdict lines on standard output. -/
def verdictLines (t : List Event) : List String := verdictLinesOf (stdoutText t)

/-! ## Lemmas on `Split` -/

theorem splitAux_of_not_mem (sep : Char) (s cur : List Char) (h : sep ∉ s) :
    splitAux sep s cur = [cur.reverse ++ s] := by
  induction s generalizing cur with
  | nil => simp [splitAux]
  | cons c cs ih =>
    have hc : ¬ c = sep := fun e => h (by simp [e])
    have hcs : sep ∉ cs := fun m => h (List.mem_cons_of_mem _ m)
    simp [splitAux, hc, ih (c :: cur) hcs]

theorem splitAux_append_sep (sep : Char) (a b cur : List Char) (h : sep ∉ a) :
    splitAux sep (a ++ sep :: b) cur = (cur.reverse ++ a) :: splitAux sep b [] := by
  induction a generalizing cur with
  | nil => simp [splitAux]
  | cons c cs ih =>
    have hc : ¬ c = sep := fun e => h (by simp [e])
    have hcs : sep ∉ cs := fun m => h (List.mem_cons_of_mem _ m)
    simp [splitAux, hc, ih (c :: cur) hcs]

theorem splitAux_cases (sep : Char) (s cur : List Char) :
    (sep ∉ s ∧ splitAux sep s cur = [cur.reverse ++ s]) ∨
    (∃ a b, s = a ++ sep :: b ∧ sep ∉ a ∧
      splitAux sep s cur = (cur.reverse ++ a) :: splitAux sep b []) := by
  by_cases h : sep ∈ s
  · right
    obtain ⟨a, b, hs, ha⟩ := List.eq_append_cons_of_mem h
    exact ⟨a, b, hs, ha, by rw [hs, splitAux_append_sep sep a b cur ha]⟩
  · exact Or.inl ⟨h, splitAux_of_not_mem sep s cur h⟩

theorem splitAux_ne_nil (sep : Char) (s cur : List Char) : splitAux sep s cur ≠ [] := by
  rcases splitAux_cases sep s cur with ⟨_, h⟩ | ⟨a, b, _, _, h⟩ <;> simp [h]

theorem length_splitAux (sep : Char) (s cur : List Char) :
    (splitAux sep s cur).length = s.count sep + 1 := by
  induction s generalizing cur with
  | nil => simp [splitAux]
  | cons c cs ih =>
    by_cases hc : c = sep
    · subst hc
      simp [splitAux, ih]
    · have hc2 : ¬ (c == sep) = true := by simpa using hc
      simp [splitAux, hc, ih, List.count_cons, hc2]

theorem length_Split (s : String) (sep : Char) :
    (Split s sep).length = s.data.count sep + 1 := by
  simp [Split, length_splitAux]

/-- A string without the separator is the single piece of its split. -/
theorem Split_of_not_mem (s : String) (sep : Char) (h : sep ∉ s.data) :
    Split s sep = [s] := by
  simp [Split, splitAux_of_not_mem sep s.data [] h]

/-- Splitting `a ++ sep ++ b` when neither part holds the separator. -/
theorem Split_append_sep (a b : String) (sep : Char) (ha : sep ∉ a.data)
    (hb : sep ∉ b.data) : Split (a ++ String.singleton sep ++ b) sep = [a, b] := by
  have h : (a ++ String.singleton sep ++ b).data = a.data ++ sep :: b.data := by
    simp [String.data_append, String.singleton]
  simp [Split, h, splitAux_append_sep sep a.data b.data [] ha,
    splitAux_of_not_mem sep b.data [] hb]

/-- A split has exactly two pieces only for `a ++ sep ++ b` with the separator
in neither part, and the pieces are then `a` and `b`. -/
theorem Split_eq_pair (s x y : String) (sep : Char) (h : Split s sep = [x, y]) :
    s = x ++ String.singleton sep ++ y ∧ sep ∉ x.data ∧ sep ∉ y.data := by
  unfold Split at h
  rcases splitAux_cases sep s.data [] with ⟨_, h1⟩ | ⟨a, b, hs, ha, h1⟩
  · rw [h1] at h; simp at h
  · rcases splitAux_cases sep b [] with ⟨hb, h2⟩ | ⟨a2, b2, _, _, h2⟩
    · rw [h1, h2] at h
      simp at h
      obtain ⟨hx, hy⟩ := h
      subst hx; subst hy
      refine ⟨?_, by simpa using ha, by simpa using hb⟩
      apply String.ext
      simp [String.data_append, String.singleton, hs]
    · rw [h1, h2] at h
      have hl := congrArg List.length h
      simp at hl
      exact absurd hl (by
        have := splitAux_ne_nil sep b2 []
        cases hq : splitAux sep b2 [] with
        | nil => exact absurd hq this
        | cons _ _ => simp)

theorem Split_ne_nil (s : String) (sep : Char) : Split s sep ≠ [] := by
  simp [Split, splitAux_ne_nil]

theorem le_digitsValue (cs : List Char) (n : Nat) : n ≤ digitsValue n cs := by
  induction cs generalizing n with
  | nil => simp [digitsValue]
  | cons c cs ih =>
    have := ih (10 * n + (c.toNat - '0'.toNat))
    simp only [digitsValue, List.foldl_cons] at this ⊢
    omega

theorem digitsValue_cons (c : Char) (cs : List Char) (n : Nat) :
    digitsValue n (c :: cs) = digitsValue (10 * n + (c.toNat - '0'.toNat)) cs := by
  simp [digitsValue]

theorem digitsValue_append_single (cs : List Char) (c : Char) (n : Nat) :
    digitsValue n (cs ++ [c]) = 10 * digitsValue n cs + (c.toNat - '0'.toNat) := by
  simp [digitsValue, List.foldl_append]

theorem char_zero_toNat : '0'.toNat = 48 := by decide

theorem char_nine_toNat : '9'.toNat = 57 := by decide

theorem isDigit_iff (c : Char) : IsDigit c ↔ 48 ≤ c.toNat ∧ c.toNat ≤ 57 := by
  simp [IsDigit, char_zero_toNat, char_nine_toNat]

/-- One iteration of the digit loop on a decimal digit. -/
theorem parseUintLoop_cons_digit (cut mx : Nat) (c : Char) (cs : List Char) (n : Nat)
    (hd : IsDigit c) :
    parseUintLoop 10 cut mx (c :: cs) n =
      if n ≥ cut then (mx, some NumErr.ErrRange)
      else if (n * 10 % 2 ^ 64 + (c.toNat - 48)) % 2 ^ 64 < n * 10 % 2 ^ 64 ∨
          (n * 10 % 2 ^ 64 + (c.toNat - 48)) % 2 ^ 64 > mx then (mx, some NumErr.ErrRange)
      else parseUintLoop 10 cut mx cs ((n * 10 % 2 ^ 64 + (c.toNat - 48)) % 2 ^ 64) := by
  have h := (isDigit_iff c).1 hd
  have hlt : ¬ (c.toNat - 48 ≥ 10) := by omega
  simp only [parseUintLoop, h, and_self, if_true, hlt, if_false]

/-- One iteration of the digit loop on any other character: a syntax error. -/
theorem parseUintLoop_cons_other (cut mx : Nat) (c : Char) (cs : List Char) (n : Nat)
    (hd : ¬ IsDigit c) :
    parseUintLoop 10 cut mx (c :: cs) n = (0, some NumErr.ErrSyntax) := by
  have h : ¬ (48 ≤ c.toNat ∧ c.toNat ≤ 57) := fun h => hd ((isDigit_iff c).2 h)
  by_cases hl : 97 ≤ lower c.toNat ∧ lower c.toNat ≤ 122
  · have hge : lower c.toNat - 97 + 10 ≥ 10 := by omega
    simp only [parseUintLoop, h, if_false, hl, and_self, if_true, hge]
  · simp only [parseUintLoop, h, if_false, hl]

/-- The digit loop of `ParseUint` in base 10 succeeds exactly on digit strings
whose value fits in 64 bits, and then returns that value; a range error comes
with the maximal value. -/
theorem parseUintLoop_spec (cut mx : Nat) (hcut : cut = 1844674407370955162)
    (hmx : mx = 18446744073709551615) (cs : List Char) (n : Nat) (hn : n ≤ mx) :
    ((parseUintLoop 10 cut mx cs n).2 = none ↔
      ((∀ c ∈ cs, IsDigit c) ∧ digitsValue n cs ≤ mx)) ∧
    ((parseUintLoop 10 cut mx cs n).2 = none →
      (parseUintLoop 10 cut mx cs n).1 = digitsValue n cs) ∧
    ((parseUintLoop 10 cut mx cs n).2 = some NumErr.ErrRange →
      (parseUintLoop 10 cut mx cs n).1 = mx) := by
  induction cs generalizing n with
  | nil =>
    refine ⟨?_, ?_, ?_⟩ <;> simp [parseUintLoop, digitsValue, hn]
  | cons c cs ih =>
    have hp : (2 : Nat) ^ 64 = 18446744073709551616 := by norm_num
    have hle := le_digitsValue cs (10 * n + (c.toNat - '0'.toNat))
    rw [char_zero_toNat] at hle
    rw [digitsValue_cons, char_zero_toNat]
    by_cases hdig : IsDigit c
    · have hd := (isDigit_iff c).1 hdig
      rw [parseUintLoop_cons_digit cut mx c cs n hdig]
      by_cases hc : n ≥ cut
      · rw [if_pos hc]
        refine ⟨⟨fun h => by simp at h, fun h => ?_⟩, fun h => by simp at h, fun _ => rfl⟩
        have := h.2
        omega
      · rw [if_neg hc]
        have hn0 : n * 10 % 2 ^ 64 = n * 10 := by rw [hp]; omega
        rw [hn0]
        by_cases hov : n * 10 + (c.toNat - 48) < 2 ^ 64
        · have hn1 : (n * 10 + (c.toNat - 48)) % 2 ^ 64 = n * 10 + (c.toNat - 48) :=
            Nat.mod_eq_of_lt hov
          rw [hn1]
          have hok : ¬ (n * 10 + (c.toNat - 48) < n * 10 ∨
              n * 10 + (c.toNat - 48) > mx) := by rw [hp] at hov; omega
          rw [if_neg hok]
          have hv : 10 * n + (c.toNat - 48) = n * 10 + (c.toNat - 48) := by omega
          rw [hv]
          have ih2 := ih (n * 10 + (c.toNat - 48)) (by rw [hp] at hov; omega)
          refine ⟨?_, ih2.2.1, ih2.2.2⟩
          rw [ih2.1]
          constructor
          · rintro ⟨h1, h2⟩
            exact ⟨fun x hx => by
              rcases List.mem_cons.1 hx with e | e
              · exact e ▸ hdig
              · exact h1 x e, h2⟩
          · rintro ⟨h1, h2⟩
            exact ⟨fun x hx => h1 x (List.mem_cons_of_mem _ hx), h2⟩
        · have hbad : (n * 10 + (c.toNat - 48)) % 2 ^ 64 < n * 10 ∨
              (n * 10 + (c.toNat - 48)) % 2 ^ 64 > mx := by
            left
            rw [hp] at hov ⊢; omega
          rw [if_pos hbad]
          refine ⟨⟨fun h => by simp at h, fun h => ?_⟩, fun h => by simp at h, fun _ => rfl⟩
          have := h.2
          rw [hp] at hov
          omega
    · rw [parseUintLoop_cons_other cut mx c cs n hdig]
      refine ⟨⟨fun h => by simp at h, fun h => ?_⟩, fun h => by simp at h,
        fun h => by simp at h⟩
      exact absurd (h.1 c (List.mem_cons_self _ _)) hdig

/-- Outcome of `ParseUint(s, 10, 64)`: no error exactly for a non-empty digit
string with value below `2 ^ 64`, which is then returned. -/
theorem ParseUint_spec (s : List Char) :
    ((ParseUint s 10 64).2 = none ↔
      (s ≠ [] ∧ (∀ c ∈ s, IsDigit c) ∧ digitsValue 0 s ≤ 18446744073709551615)) ∧
    ((ParseUint s 10 64).2 = none → (ParseUint s 10 64).1 = digitsValue 0 s) ∧
    ((ParseUint s 10 64).2 = some NumErr.ErrRange →
      (ParseUint s 10 64).1 = 18446744073709551615) := by
  unfold ParseUint
  by_cases hs : s = []
  · simp [hs]
  · rw [if_neg hs]
    have h := parseUintLoop_spec (maxUint64 / 10 + 1) (2 ^ 64 - 1) (by decide) (by norm_num)
      s 0 (Nat.zero_le _)
    have hm : (2 : Nat) ^ 64 - 1 = 18446744073709551615 := by norm_num
    rw [hm] at h
    rw [hm]
    exact ⟨by rw [h.1]; simp [hs], h.2.1, h.2.2⟩

theorem pickSign_plus (r : List Char) : pickSign ('+' :: r) = (false, r) := rfl

theorem pickSign_minus (r : List Char) : pickSign ('-' :: r) = (true, r) := rfl

theorem pickSign_other (c : Char) (r : List Char) (h1 : c ≠ '+') (h2 : c ≠ '-') :
    pickSign (c :: r) = (false, c :: r) := by
  unfold pickSign
  split <;> simp_all

theorem isDigit_ne_plus (c : Char) (h : IsDigit c) : c ≠ '+' := by
  rintro rfl
  exact absurd ((isDigit_iff _).1 h) (by decide)

theorem isDigit_ne_minus (c : Char) (h : IsDigit c) : c ≠ '-' := by
  rintro rfl
  exact absurd ((isDigit_iff _).1 h) (by decide)

theorem wrapInt_64_of_range (x : Int) (h1 : -9223372036854775808 ≤ x)
    (h2 : x ≤ 9223372036854775807) : wrapInt 64 x = x := by
  unfold wrapInt
  norm_num
  omega

theorem wrapInt_64_min : wrapInt 64 9223372036854775808 = -9223372036854775808 := by
  decide

/-- The function `ParseInt` in terms of the outcomes of its two steps. -/
theorem ParseInt_eval (s : String) (neg : Bool) (rest : List Char) (un : Nat)
    (err : Option NumErr) (hs : s.data ≠ []) (hp : pickSign s.data = (neg, rest))
    (hu : ParseUint rest 10 64 = (un, err)) :
    ParseInt s 10 64 =
      if err = some NumErr.ErrSyntax then (0, some NumErr.ErrSyntax)
      else if !neg && decide (un ≥ 9223372036854775808)
      then (9223372036854775807, some NumErr.ErrRange)
      else if neg && decide (un > 9223372036854775808)
      then (-9223372036854775808, some NumErr.ErrRange)
      else (if neg then wrapInt 64 (-(wrapInt 64 (un : Int))) else wrapInt 64 (un : Int),
        none) := by
  unfold ParseInt
  rw [if_neg hs]
  simp only [hp, hu]
  norm_num

/-- Outcome of `ParseInt(s, 10, 64)` once the sign is picked off: no error
exactly when the rest is a non-empty digit string whose value is at most
`2 ^ 63` under a minus sign and at most `2 ^ 63 - 1` otherwise. -/
theorem ParseInt_parts (s : String) (neg : Bool) (rest : List Char) (hs : s.data ≠ [])
    (hp : pickSign s.data = (neg, rest)) :
    ((ParseInt s 10 64).2 = none ↔
      (rest ≠ [] ∧ (∀ c ∈ rest, IsDigit c) ∧
        digitsValue 0 rest ≤ (if neg then 9223372036854775808 else 9223372036854775807))) ∧
    ((ParseInt s 10 64).2 = none →
      (ParseInt s 10 64).1 =
        if neg then -(digitsValue 0 rest : Int) else (digitsValue 0 rest : Int)) := by
  have hU := ParseUint_spec rest
  rcases hr : ParseUint rest 10 64 with ⟨un, err⟩
  rw [hr] at hU
  simp only at hU
  rw [ParseInt_eval s neg rest un err hs hp hr]
  obtain ⟨hU1, hU2, hU3⟩ := hU
  cases err with
  | none =>
    have hval := hU2 rfl
    have hok := hU1.1 rfl
    subst hval
    cases neg with
    | false =>
      by_cases hb : digitsValue 0 rest ≥ 9223372036854775808
      · have hb2 : ¬ digitsValue 0 rest ≤ 9223372036854775807 := by omega
        simp [hb, hb2]
      · have hb2 : digitsValue 0 rest ≤ 9223372036854775807 := by omega
        have hw := wrapInt_64_of_range (digitsValue 0 rest : Int) (by omega) (by omega)
        simp [hb, hb2, hw, hok.1]
        exact hok.2.1
    | true =>
      by_cases hb : digitsValue 0 rest > 9223372036854775808
      · have hb2 : ¬ digitsValue 0 rest ≤ 9223372036854775808 := by omega
        simp [hb, hb2]
      · have hb2 : digitsValue 0 rest ≤ 9223372036854775808 := by omega
        have hb3 : ¬ 9223372036854775808 < digitsValue 0 rest := by omega
        have hw : wrapInt 64 (-(wrapInt 64 (digitsValue 0 rest : Int)))
            = -(digitsValue 0 rest : Int) := by
          by_cases he : digitsValue 0 rest = 9223372036854775808
          · rw [he]
            decide
          · rw [wrapInt_64_of_range (digitsValue 0 rest : Int) (by omega) (by omega)]
            exact wrapInt_64_of_range _ (by omega) (by omega)
        simp [hb3, hb2, hw, hok.1]
        exact hok.2.1
  | some e =>
    have hno : ¬ (rest ≠ [] ∧ (∀ c ∈ rest, IsDigit c) ∧
        digitsValue 0 rest ≤ 18446744073709551615) := fun h => by
      have := hU1.2 h
      simp at this
    have hno2 : ¬ (rest ≠ [] ∧ (∀ c ∈ rest, IsDigit c) ∧
        digitsValue 0 rest ≤ (if neg then 9223372036854775808 else 9223372036854775807)) :=
      fun h => hno ⟨h.1, h.2.1, by
        have := h.2.2
        cases neg <;> simp at this <;> omega⟩
    cases e with
    | ErrSyntax =>
      exact ⟨⟨fun h => by simp at h, fun h => absurd h hno2⟩, fun h => by simp at h⟩
    | ErrRange =>
      have hmx := hU3 rfl
      subst hmx
      cases neg <;>
        exact ⟨⟨fun h => by simp at h, fun h => absurd h hno2⟩, fun h => by simp at h⟩

/-- Every literal is parsed to the value it denotes. -/
theorem ParseInt_of_literal (s : String) (v : Int) (h : Int64Literal s v) :
    ParseInt s 10 64 = (v, none) := by
  obtain ⟨sign, digits, hs, hsign, hne, hdig, hv, hlo, hhi⟩ := h
  have hs0 : s.data ≠ [] := by
    rw [hs]; intro h0
    exact hne (List.append_eq_nil.1 h0).2
  have key : ∀ neg : Bool, pickSign s.data = (neg, digits) →
      v = (if neg then -(digitsValue 0 digits : Int) else (digitsValue 0 digits : Int)) →
      ParseInt s 10 64 = (v, none) := by
    intro neg hp hv2
    have hP := ParseInt_parts s neg digits hs0 hp
    have hnone : (ParseInt s 10 64).2 = none := by
      rw [hP.1]
      refine ⟨hne, hdig, ?_⟩
      cases neg <;> simp at hv2 ⊢ <;> omega
    exact Prod.ext (by rw [hP.2 hnone, hv2]) hnone
  rcases hsign with rfl | rfl | rfl
  · cases digits with
    | nil => exact absurd rfl hne
    | cons c r =>
      have hc := hdig c (List.mem_cons_self _ _)
      refine key false ?_ (by simpa using hv)
      rw [hs]
      exact pickSign_other c r (isDigit_ne_plus c hc) (isDigit_ne_minus c hc)
  · refine key false ?_ (by simpa using hv)
    rw [hs]; rfl
  · refine key true ?_ (by simpa using hv)
    rw [hs]; rfl

/-- Whatever `ParseInt` accepts is a literal. -/
theorem literal_of_ParseInt (s : String) (h : (ParseInt s 10 64).2 = none) :
    ∃ v, Int64Literal s v := by
  cases hd : s.data with
  | nil =>
    unfold ParseInt at h
    simp [hd] at h
  | cons c r =>
    have hs0 : s.data ≠ [] := by simp [hd]
    have key : ∀ (neg : Bool) (sign rest : List Char), pickSign s.data = (neg, rest) →
        c :: r = sign ++ rest → (sign = [] ∨ sign = ['+'] ∨ sign = ['-']) →
        (neg = true ↔ sign = ['-']) → ∃ v, Int64Literal s v := by
      intro neg sign rest hp hsplit hsign hneg
      have hP := (ParseInt_parts s neg rest hs0 hp).1.1 h
      refine ⟨if neg then -(digitsValue 0 rest : Int) else (digitsValue 0 rest : Int),
        sign, rest, by rw [hd, hsplit], hsign, hP.1, hP.2.1, ?_, ?_, ?_⟩
      · cases neg <;> simp_all
      · have := hP.2.2
        cases neg <;> simp at this ⊢ <;> omega
      · have := hP.2.2
        cases neg <;> simp at this ⊢ <;> omega
    by_cases h1 : c = '+'
    · subst h1
      exact key false ['+'] r (by rw [hd]; rfl) rfl (Or.inr (Or.inl rfl)) (by decide)
    · by_cases h2 : c = '-'
      · subst h2
        exact key true ['-'] r (by rw [hd]; rfl) rfl (Or.inr (Or.inr rfl)) (by decide)
      · exact key false [] (c :: r) (by rw [hd]; exact pickSign_other c r h1 h2) rfl
          (Or.inl rfl) (by decide)

/-! ## Lemmas on `decimal` -/

theorem toNat_digit (d : Nat) (h : d < 10) : (Char.ofNat (48 + d)).toNat = 48 + d := by
  interval_cases d <;> rfl

theorem isDigit_digit (d : Nat) (h : d < 10) : IsDigit (Char.ofNat (48 + d)) := by
  rw [isDigit_iff, toNat_digit d h]
  omega

/-- The loop `formatBits` puts in front of `acc` the digits of `u`: a non-empty
run of decimal digits whose value is `u`. -/
theorem formatBits_spec (fuel u : Nat) (acc : List Char) (h : u ≤ fuel) :
    ∃ ds, formatBits fuel u acc = ds ++ acc ∧ ds ≠ [] ∧ (∀ c ∈ ds, IsDigit c) ∧
      digitsValue 0 ds = u := by
  induction fuel generalizing u acc with
  | zero =>
    have hu : u = 0 := by omega
    subst hu
    exact ⟨[Char.ofNat 48], rfl, by simp, by
      intro c hc
      rw [List.mem_singleton] at hc
      subst hc
      exact isDigit_digit 0 (by omega), by decide⟩
  | succ fuel ih =>
    by_cases hu : u ≥ 10
    · obtain ⟨ds, h1, _, h3, h4⟩ := ih (u / 10) (Char.ofNat (48 + u % 10) :: acc) (by omega)
      have hm : u % 10 < 10 := Nat.mod_lt _ (by omega)
      refine ⟨ds ++ [Char.ofNat (48 + u % 10)], ?_, by simp, ?_, ?_⟩
      · simp [formatBits, hu, h1]
      · intro c hc
        rcases List.mem_append.1 hc with hc | hc
        · exact h3 c hc
        · rw [List.mem_singleton] at hc
          subst hc
          exact isDigit_digit _ hm
      · rw [digitsValue_append_single, h4, toNat_digit _ hm, char_zero_toNat]
        omega
    · have hlt : u < 10 := by omega
      refine ⟨[Char.ofNat (48 + u)], by simp [formatBits, hu], by simp, ?_, ?_⟩
      · intro c hc
        rw [List.mem_singleton] at hc
        subst hc
        exact isDigit_digit _ hlt
      · simp [digitsValue, toNat_digit u hlt, char_zero_toNat]

/-- The text `decimal n` is a literal denoting `n`, for every `n` of 64 bits. -/
theorem decimal_literal (n : Int) (h1 : -2 ^ 63 ≤ n) (h2 : n ≤ 2 ^ 63 - 1) :
    Int64Literal (decimal n) n := by
  unfold decimal
  by_cases hn : n < 0
  · have hu : (-n).toNat % 2 ^ 64 = (-n).toNat := Nat.mod_eq_of_lt (by
      have : (2 : Nat) ^ 64 = 18446744073709551616 := by norm_num
      rw [this]; omega)
    obtain ⟨ds, e1, e2, e3, e4⟩ := formatBits_spec (-n).toNat (-n).toNat [] (le_refl _)
    refine ⟨['-'], ds, ?_, Or.inr (Or.inr rfl), e2, e3, ?_, h1, h2⟩
    · simp only [hn, if_true, hu, e1, List.append_nil, List.singleton_append]
    · rw [e4]; simp; omega
  · have hu : n.toNat % 2 ^ 64 = n.toNat := Nat.mod_eq_of_lt (by
      have : (2 : Nat) ^ 64 = 18446744073709551616 := by norm_num
      rw [this]; omega)
    obtain ⟨ds, e1, e2, e3, e4⟩ := formatBits_spec n.toNat n.toNat [] (le_refl _)
    refine ⟨[], ds, ?_, Or.inl rfl, e2, e3, ?_, h1, h2⟩
    · simp only [hn, if_false, hu, e1, List.append_nil, List.nil_append]
    · rw [e4]; simp; omega

/-- The text `decimal n` consists of digits and possibly a minus sign. -/
theorem decimal_chars (n : Int) : ∀ c ∈ (decimal n).data, IsDigit c ∨ c = '-' := by
  intro c hc
  unfold decimal at hc
  obtain ⟨ds, e1, _, e3, _⟩ := formatBits_spec
    ((if n < 0 then -n else n).toNat % 2 ^ 64) ((if n < 0 then -n else n).toNat % 2 ^ 64) []
    (le_refl _)
  simp only [e1, List.append_nil] at hc
  by_cases hn : n < 0
  · simp only [hn, if_true] at hc e3
    rcases List.mem_cons.1 hc with h | h
    · exact Or.inr h
    · exact Or.inl (e3 c h)
  · simp only [hn, if_false] at hc e3
    exact Or.inl (e3 c hc)

theorem at_not_mem_decimal (n : Int) : '@' ∉ (decimal n).data := by
  intro h
  rcases decimal_chars n _ h with h | h
  · exact absurd ((isDigit_iff _).1 h) (by decide)
  · exact absurd h (by decide)

theorem colon_not_mem_decimal (n : Int) : ':' ∉ (decimal n).data := by
  intro h
  rcases decimal_chars n _ h with h | h
  · exact absurd ((isDigit_iff _).1 h) (by decide)
  · exact absurd h (by decide)

/-! ## `fromString` -/

/-- Outcome of `fromString` on `a ++ "@" ++ host ++ ":" ++ port` when `a` and
`host` are split as shown and the port text is a literal. -/
theorem fromString_of_parts (dbcf : dbConf) (a b host port : String) (v : Int)
    (ha : '@' ∉ a.data) (hb : '@' ∉ b.data)
    (hb2 : b = host ++ ":" ++ port) (hh : ':' ∉ host.data) (hp : ':' ∉ port.data)
    (hv : Int64Literal port v) (sw : dbConf)
    (hsw : (match Split a ':' with
      | [u] => some { dbcf with user := u }
      | [u, p] => some { dbcf with user := u, password := p }
      | _ => none) = some sw) :
    dbcf.fromString (a ++ "@" ++ b) = ({ sw with host := host, port := v }, none) := by
  have h1 : Split (a ++ "@" ++ b) '@' = [a, b] := Split_append_sep a b '@' ha hb
  have h2 : Split b ':' = [host, port] := by
    rw [hb2]; exact Split_append_sep host port ':' hh hp
  have h3 : ParseInt port 10 64 = (v, none) := ParseInt_of_literal port v hv
  have h4 : wrapInt intSize v = v := by
    obtain ⟨_, _, _, _, _, _, _, hlo, hhi⟩ := hv
    exact wrapInt_64_of_range v (by norm_num at hlo; exact hlo) (by norm_num at hhi; exact hhi)
  unfold dbConf.fromString
  rw [h1]
  simp only [hsw, h2, h3, h4]
  simp

theorem mem_data_append (c : Char) (a b : String) :
    c ∈ (a ++ b).data ↔ c ∈ a.data ∨ c ∈ b.data := by
  simp [String.data_append]

/-- Claim C1: `fromString` parses what the documented format writes.  For user,
password and host without `@` and `:` and every port `n` of 64 bits, a
zero-valued `dbConf` reads `user:password@host:n` and `user@host:n` without
error and holds exactly those fields afterwards (an empty password in the second
form). -/
theorem fromString_parses_format (user password host : String) (n : Int)
    (hu : '@' ∉ user.data ∧ ':' ∉ user.data)
    (hp : '@' ∉ password.data ∧ ':' ∉ password.data)
    (hh : '@' ∉ host.data ∧ ':' ∉ host.data)
    (h1 : -2 ^ 63 ≤ n) (h2 : n ≤ 2 ^ 63 - 1) :
    ({} : dbConf).fromString (user ++ ":" ++ password ++ "@" ++ host ++ ":" ++ decimal n)
      = ({ user := user, password := password, host := host, port := n }, none) ∧
    ({} : dbConf).fromString (user ++ "@" ++ host ++ ":" ++ decimal n)
      = ({ user := user, password := "", host := host, port := n }, none) := by
  have hlit := decimal_literal n h1 h2
  have hb : '@' ∉ (host ++ ":" ++ decimal n).data := by
    rw [mem_data_append, mem_data_append]
    rintro ((h | h) | h)
    · exact hh.1 h
    · exact absurd h (by decide)
    · exact at_not_mem_decimal n h
  constructor
  · have ha : '@' ∉ (user ++ ":" ++ password).data := by
      rw [mem_data_append, mem_data_append]
      rintro ((h | h) | h)
      · exact hu.1 h
      · exact absurd h (by decide)
      · exact hp.1 h
    have hsp : Split (user ++ ":" ++ password) ':' = [user, password] :=
      Split_append_sep user password ':' hu.2 hp.2
    have := fromString_of_parts {} (user ++ ":" ++ password) (host ++ ":" ++ decimal n)
      host (decimal n) n ha hb rfl hh.2 (colon_not_mem_decimal n) hlit
      { user := user, password := password } (by rw [hsp])
    simpa [String.append_assoc] using this
  · have hsp : Split user ':' = [user] := Split_of_not_mem user ':' hu.2
    have := fromString_of_parts {} user (host ++ ":" ++ decimal n)
      host (decimal n) n hu.1 hb rfl hh.2 (colon_not_mem_decimal n) hlit
      { user := user } (by rw [hsp])
    simpa [String.append_assoc] using this

/-- Witness for C1: user `root`, password `pw`, host `127.0.0.1`, port 4000. -/
theorem fromString_parses_format_witness :
    ({} : dbConf).fromString ("root" ++ ":" ++ "pw" ++ "@" ++ "127.0.0.1" ++ ":" ++ decimal 4000)
      = ({ user := "root", password := "pw", host := "127.0.0.1", port := 4000 }, none) ∧
    ({} : dbConf).fromString ("root" ++ "@" ++ "127.0.0.1" ++ ":" ++ decimal 4000)
      = ({ user := "root", password := "", host := "127.0.0.1", port := 4000 }, none) :=
  fromString_parses_format "root" "pw" "127.0.0.1" 4000 (by decide) (by decide) (by decide)
    (by decide) (by decide)

/-- The `switch len(part1)` of `fromString` takes a non-default branch exactly
when the text has at most one `:`. -/
theorem switch_part1 (dbcf : dbConf) (a : String) :
    ((match Split a ':' with
      | [u] => some { dbcf with user := u }
      | [u, p] => some { dbcf with user := u, password := p }
      | _ => none) ≠ none) ↔ a.data.count ':' ≤ 1 := by
  have hl := length_Split a ':'
  rcases hS : Split a ':' with _ | ⟨t0, _ | ⟨t1, _ | ⟨t2, r⟩⟩⟩
  · exact absurd hS (Split_ne_nil a ':')
  · rw [hS] at hl; simp at hl; simp [hl]
  · rw [hS] at hl; simp at hl; simp; omega
  · rw [hS] at hl; simp at hl; simp; omega

/-- Outcome of `fromString`: `nil` exactly on well-formed URLs, and `errParse`
on every other string. -/
theorem fromString_spec (dbcf : dbConf) (url : String) :
    ((dbcf.fromString url).2 = none ↔ WellFormedURL url) ∧
    ((dbcf.fromString url).2 ≠ none → (dbcf.fromString url).2 = some errParse) := by
  refine ⟨⟨fun h => ?_, fun h => ?_⟩, fun h => ?_⟩
  · -- a `nil` result forces every check of the function to pass
    unfold dbConf.fromString at h
    rcases hS : Split url '@' with _ | ⟨t0, _ | ⟨t1, _ | ⟨t2, r⟩⟩⟩
    · rw [hS] at h; simp at h
    · rw [hS] at h; simp at h
    · rw [hS] at h
      simp only at h
      obtain ⟨hurl, h0, h1⟩ := Split_eq_pair url t0 t1 '@' hS
      have hcount : t0.data.count ':' ≤ 1 := by
        rw [← switch_part1 dbcf t0]
        intro hnone
        rw [hnone] at h
        simp at h
      rcases hsw : (match Split t0 ':' with
        | [u] => some { dbcf with user := u }
        | [u, p] => some { dbcf with user := u, password := p }
        | _ => none) with _ | sw
      · rw [hsw] at h; simp at h
      · rw [hsw] at h
        simp only at h
        rcases hS2 : Split t1 ':' with _ | ⟨p0, _ | ⟨p1, _ | ⟨p2, r⟩⟩⟩
        · rw [hS2] at h; simp at h
        · rw [hS2] at h; simp at h
        · rw [hS2] at h
          simp only at h
          obtain ⟨ht1, hp0, hp1⟩ := Split_eq_pair t1 p0 p1 ':' hS2
          have hparse : (ParseInt p1 10 64).2 = none := by
            by_contra hne
            rw [if_pos hne] at h
            simp at h
          exact ⟨t0, t1, hurl, h0, h1, hcount, p0, p1, ht1, hp0, hp1,
            literal_of_ParseInt p1 hparse⟩
        · rw [hS2] at h; simp at h
    · rw [hS] at h; simp at h
  · -- a well-formed URL passes every check
    obtain ⟨a, b, hurl, ha, hb, hcount, host, port, hb2, hh, hp, v, hv⟩ := h
    have hsw := (switch_part1 dbcf a).2 hcount
    rcases hm : (match Split a ':' with
        | [u] => some { dbcf with user := u }
        | [u, p] => some { dbcf with user := u, password := p }
        | _ => none) with _ | sw
    · exact absurd hm hsw
    · rw [hurl, fromString_of_parts dbcf a b host port v ha hb hb2 hh hp hv sw hm]
  · -- every return of an error returns `errParse`
    have tail : ∀ (c : dbConf) (t1 : String),
        (match Split t1 ':' with
          | [part20, part21] =>
            if (ParseInt part21 10 64).2 ≠ none then (c, some errParse)
            else ({ c with host := part20, port := wrapInt intSize (ParseInt part21 10 64).1 },
              none)
          | _ => (c, some errParse)).2 ≠ none →
        (match Split t1 ':' with
          | [part20, part21] =>
            if (ParseInt part21 10 64).2 ≠ none then (c, some errParse)
            else ({ c with host := part20, port := wrapInt intSize (ParseInt part21 10 64).1 },
              none)
          | _ => (c, some errParse)).2 = some errParse := by
      intro c t1
      rcases Split t1 ':' with _ | ⟨p0, _ | ⟨p1, _ | ⟨p2, r⟩⟩⟩
      · exact fun _ => rfl
      · exact fun _ => rfl
      · simp only
        by_cases hparse : (ParseInt p1 10 64).2 ≠ none
        · rw [if_pos hparse]
          exact fun _ => rfl
        · rw [if_neg hparse]
          exact fun h => absurd rfl h
      · exact fun _ => rfl
    revert h
    unfold dbConf.fromString
    rcases Split url '@' with _ | ⟨t0, _ | ⟨t1, _ | ⟨t2, r⟩⟩⟩
    · exact fun _ => rfl
    · exact fun _ => rfl
    · simp only
      rcases Split t0 ':' with _ | ⟨u0, _ | ⟨u1, _ | ⟨u2, r⟩⟩⟩
      · exact fun _ => rfl
      · exact tail _ t1
      · exact tail _ t1
      · exact fun _ => rfl
    · exact fun _ => rfl

/-- Claim C2: `fromString` fails exactly on strings that are not of the form
`user[:password]@host:port`.  It returns `nil` if and only if the URL is
well-formed, and every error it returns is `errParse`, whose text is
`format: user[:password]@host:port`. -/
theorem fromString_nil_iff_wellFormed (dbcf : dbConf) (url : String) :
    ((dbcf.fromString url).2 = none ↔ WellFormedURL url) ∧
    ((dbcf.fromString url).2 ≠ none → (dbcf.fromString url).2 = some errParse) ∧
    errParse.Error = "format: user[:password]@host:port" :=
  ⟨(fromString_spec dbcf url).1, (fromString_spec dbcf url).2, rfl⟩

/-- Witness for C2: a string without `@` is rejected with `errParse`. -/
theorem fromString_nil_iff_wellFormed_witness :
    (({} : dbConf).fromString "root").2 = some errParse :=
  (fromString_nil_iff_wellFormed {} "root").2.1 (by decide)

/-! ## `equalStrings` -/

/-- The index loop, started at `i ≤ len` on slices of equal length with enough
iterations left, returns a value: whether the slices agree from `i` on. -/
theorem equalStringsLoop_spec (a b : List String) (hl : a.length = b.length)
    (fuel i : Nat) (hi : i ≤ a.length) (hf : a.length < fuel + i) :
    equalStringsLoop a b fuel i = Except.ok (decide (a.drop i = b.drop i)) := by
  induction fuel generalizing i with
  | zero => omega
  | succ fuel ih =>
    unfold equalStringsLoop
    by_cases hlt : i < a.length
    · have hltb : i < b.length := hl ▸ hlt
      rw [if_pos hlt, List.getElem?_eq_getElem hlt, List.getElem?_eq_getElem hltb]
      simp only
      have ha := List.drop_eq_getElem_cons hlt
      have hb := List.drop_eq_getElem_cons hltb
      by_cases hx : a[i] ≠ b[i]
      · have hne : ¬ (List.drop i a = List.drop i b) := by
          rw [ha, hb]
          exact fun h => hx (List.cons.inj h).1
        rw [if_pos hx, decide_eq_false hne]
      · have hx2 : a[i] = b[i] := not_not.1 hx
        have hiff : (List.drop (i + 1) a = List.drop (i + 1) b) ↔
            (List.drop i a = List.drop i b) := by
          rw [ha, hb, hx2]
          exact ⟨fun h => by rw [h], fun h => (List.cons.inj h).2⟩
        rw [if_neg hx, ih (i + 1) (by omega) (by omega), decide_eq_decide.2 hiff]
    · rw [if_neg hlt, List.drop_eq_nil_of_le (by omega), List.drop_eq_nil_of_le (by omega)]
      simp

/-- The function `equalStrings` always returns a value, and that value is
whether the two slices are the same list. -/
theorem equalStrings_eq (a b : List String) :
    equalStrings a b = Except.ok (decide (a = b)) := by
  unfold equalStrings
  by_cases hl : a.length ≠ b.length
  · have : a ≠ b := fun h => hl (congrArg List.length h)
    simp [hl, this]
  · have hl2 : a.length = b.length := not_not.1 hl
    rw [if_neg hl, equalStringsLoop_spec a b hl2 (a.length + 1) 0 (Nat.zero_le _) (by omega)]
    simp

theorem list_eq_iff_index (a b : List String) :
    a = b ↔ (a.length = b.length ∧ ∀ i, i < a.length → a[i]? = b[i]?) := by
  constructor
  · rintro rfl
    exact ⟨rfl, fun _ _ => rfl⟩
  · rintro ⟨hl, h⟩
    apply List.ext_getElem?
    intro n
    by_cases hn : n < a.length
    · exact h n hn
    · rw [List.getElem?_eq_none (by omega), List.getElem?_eq_none (by omega)]

/-- Claim C9: `equalStrings` decides list equality.  It always returns a value
(no read past the end of either slice, no exhausted iteration bound), and that
value is `true` if and only if the slices have the same length and the same
string at every index; it is reflexive and symmetric, and two different
orderings of the same names are reported as not equal. -/
theorem equalStrings_decides_equality (a b : List String) :
    (∃ r, equalStrings a b = Except.ok r ∧
      (r = true ↔ (a.length = b.length ∧ ∀ i, i < a.length → a[i]? = b[i]?))) ∧
    equalStrings a a = Except.ok true ∧
    equalStrings a b = equalStrings b a ∧
    (a.Perm b ∧ a ≠ b → equalStrings a b = Except.ok false) := by
  refine ⟨⟨decide (a = b), equalStrings_eq a b, ?_⟩, ?_, ?_, ?_⟩
  · rw [decide_eq_true_iff]
    exact list_eq_iff_index a b
  · rw [equalStrings_eq]; simp
  · rw [equalStrings_eq, equalStrings_eq]
    congr 1
    exact decide_eq_decide.2 eq_comm
  · rintro ⟨_, hne⟩
    rw [equalStrings_eq]; simp [hne]

/-- Witness for C9: the same two names in a different order. -/
theorem equalStrings_decides_equality_witness :
    equalStrings ["a", "b"] ["b", "a"] = Except.ok false :=
  (equalStrings_decides_equality ["a", "b"] ["b", "a"]).2.2.2
    ⟨List.Perm.swap "b" "a" [], by decide⟩

/-! ## Data source names -/

/-- The data source name of `showDatabases`, written out. -/
theorem showDatabasesSrc_eq (dbcf : dbConf) :
    showDatabasesSrc dbcf
      = dbcf.user ++ "@tcp(" ++ dbcf.host ++ ":" ++ decimal dbcf.port ++ ")/?timeout=30s" := by
  apply String.ext
  simp [showDatabasesSrc, Sprintf, sprintfAux, String.data_append]

/-- The data source name of `fullPath`, written out. -/
theorem fullPath_eq (dbcf : dbConf) (dbName : String) :
    dbcf.fullPath dbName
      = dbcf.user ++ ":" ++ dbcf.password ++ "@tcp(" ++ dbcf.host ++ ":" ++ decimal dbcf.port
        ++ ")/" ++ dbName ++ "?timeout=30s" := by
  apply String.ext
  simp [dbConf.fullPath, Sprintf, sprintfAux, String.data_append]

/-! ## Observations on traces -/

theorem stdout_append (t u : List Event) : stdout (t ++ u) = stdout t ++ stdout u := by
  induction t with
  | nil => rfl
  | cons e t ih => cases e <;> simp [stdout, ih]

theorem compared_append (t u : List Event) :
    compared (t ++ u) = compared t ++ compared u := by
  induction t with
  | nil => rfl
  | cons e t ih => cases e <;> simp [compared, ih]

theorem listed_append (t u : List Event) : listed (t ++ u) = listed t ++ listed u := by
  induction t with
  | nil => rfl
  | cons e t ih => cases e <;> simp [listed, ih]

/-- Claim C10: the connection string used to list databases does not depend on
the password.  Two configurations that agree on user, host and port give
`showDatabases` the same data source name, `user@tcp(host:port)/?timeout=30s`,
hence the same listing, world and output; `fullPath` builds
`user:password@tcp(host:port)/dbName?timeout=30s`, which contains the password
and differs whenever the passwords differ. -/
theorem listing_dsn_ignores_password {σ : Type} (ext : Extern σ) (c1 c2 : dbConf)
    (dbName : String) (st : Run σ)
    (hu : c1.user = c2.user) (hh : c1.host = c2.host) (hp : c1.port = c2.port) :
    showDatabasesSrc c1 = showDatabasesSrc c2 ∧
    showDatabasesSrc c1
      = c1.user ++ "@tcp(" ++ c1.host ++ ":" ++ decimal c1.port ++ ")/?timeout=30s" ∧
    (showDatabases ext c1 st).1 = (showDatabases ext c2 st).1 ∧
    (showDatabases ext c1 st).2.world = (showDatabases ext c2 st).2.world ∧
    stdout (showDatabases ext c1 st).2.trace = stdout (showDatabases ext c2 st).2.trace ∧
    c1.fullPath dbName
      = c1.user ++ ":" ++ c1.password ++ "@tcp(" ++ c1.host ++ ":" ++ decimal c1.port
        ++ ")/" ++ dbName ++ "?timeout=30s" ∧
    c1.password.data <:+: (c1.fullPath dbName).data ∧
    (c1.password ≠ c2.password → c1.fullPath dbName ≠ c2.fullPath dbName) := by
  have hsrc : showDatabasesSrc c1 = showDatabasesSrc c2 := by
    rw [showDatabasesSrc_eq, showDatabasesSrc_eq, hu, hh, hp]
  refine ⟨hsrc, showDatabasesSrc_eq c1, ?_, ?_, ?_, fullPath_eq c1 dbName, ?_, ?_⟩
  · unfold showDatabases
    simp only [Run.log, hsrc]
    rcases ext.sqlOpen (showDatabasesSrc c2) st.world with ⟨_ | db, w⟩
    · rfl
    · simp only
      rcases ext.ShowDatabases db w with ⟨_ | ret, w2⟩ <;> rfl
  · unfold showDatabases
    simp only [Run.log, hsrc]
    rcases ext.sqlOpen (showDatabasesSrc c2) st.world with ⟨_ | db, w⟩
    · rfl
    · simp only
      rcases ext.ShowDatabases db w with ⟨_ | ret, w2⟩ <;> rfl
  · unfold showDatabases
    simp only [Run.log, hsrc]
    rcases ext.sqlOpen (showDatabasesSrc c2) st.world with ⟨_ | db, w⟩
    · simp [Run.println, Run.log, stdout_append, stdout]
    · simp only
      rcases ext.ShowDatabases db w with ⟨_ | ret, w2⟩ <;>
        simp [Run.println, Run.log, stdout_append, stdout]
  · rw [fullPath_eq]
    refine ⟨(c1.user ++ ":").data,
      ("@tcp(" ++ c1.host ++ ":" ++ decimal c1.port ++ ")/" ++ dbName ++ "?timeout=30s").data,
      ?_⟩
    simp [String.data_append]
  · intro hne heq
    rw [fullPath_eq, fullPath_eq, ← hu, ← hh, ← hp] at heq
    have h := congrArg String.data heq
    simp only [String.data_append, List.append_assoc] at h
    have h2 := List.append_cancel_left h
    have h3 := List.append_cancel_left h2
    have h4 := List.append_cancel_right h3
    exact hne (String.ext h4)

/-- Witness for C10: the same account with two different passwords. -/
theorem listing_dsn_ignores_password_witness :
    showDatabasesSrc { user := "root", password := "a", host := "h", port := 4000 }
      = showDatabasesSrc { user := "root", password := "b", host := "h", port := 4000 } ∧
    (dbConf.mk "root" "a" "h" 4000).fullPath "d" ≠ (dbConf.mk "root" "b" "h" 4000).fullPath "d" :=
  have h := listing_dsn_ignores_password
    (scripted (fun _ => Except.ok []) (fun _ => none) (fun _ => Except.ok true))
    { user := "root", password := "a", host := "h", port := 4000 }
    { user := "root", password := "b", host := "h", port := 4000 } "d"
    { world := 0, trace := [] } rfl rfl rfl
  ⟨h.1, h.2.2.2.2.2.2.2 (by decide)⟩

/-! ## Shape of the process functions -/

/-- A successful `showDatabases` prints nothing. -/
theorem showDatabases_ok_trace {σ : Type} (ext : Extern σ) (c : dbConf) (st st1 : Run σ)
    (l : List String) (h : showDatabases ext c st = (Except.ok l, st1)) :
    st1.trace = st.trace ++ [Event.showDatabases c] := by
  revert h
  unfold showDatabases
  simp only [Run.log]
  rcases ext.sqlOpen (showDatabasesSrc c) st.world with ⟨_ | db, w⟩
  · intro h
    simp at h
  · simp only
    rcases ext.ShowDatabases db w with ⟨_ | ret, w2⟩
    · intro h
      simp at h
    · intro h
      simp only [Prod.mk.injEq] at h
      rw [← h.2]

/-- A failing `showDatabases` prints one diagnostic line and exits with the
argument `-1`. -/
theorem showDatabases_error_trace {σ : Type} (ext : Extern σ) (c : dbConf) (st st1 : Run σ)
    (hl : Halt) (h : showDatabases ext c st = (Except.error hl, st1)) :
    hl = Halt.exit (-1) ∧
    ∃ e : GoError, st1.trace = st.trace ++ [Event.showDatabases c,
      Event.println ("database config error: " ++ e.Error)] ∨
      st1.trace = st.trace ++ [Event.showDatabases c, Event.println (ext.ErrorStack e)] := by
  revert h
  unfold showDatabases
  simp only [Run.log, Run.println]
  rcases ext.sqlOpen (showDatabasesSrc c) st.world with ⟨e | db, w⟩
  · intro h
    simp only [Prod.mk.injEq, Except.error.injEq] at h
    exact ⟨h.1.symm, e, Or.inl (by rw [← h.2]; simp)⟩
  · simp only
    rcases ext.ShowDatabases db w with ⟨e | ret, w2⟩
    · intro h
      simp only [Prod.mk.injEq, Except.error.injEq] at h
      exact ⟨h.1.symm, e, Or.inr (by rw [← h.2]; simp)⟩
    · intro h
      simp at h

/-- A call of `compareOneDB` adds its entry to the trace and nothing else. -/
theorem compareOneDB_trace {σ : Type} (ext : Extern σ) (c1 c2 : dbConf) (d : String)
    (st : Run σ) :
    (compareOneDB ext c1 c2 d st).2.trace = st.trace ++ [Event.compareOneDB d] := by
  unfold compareOneDB
  simp only [Run.log]
  rcases ext.sqlOpen (c1.fullPath d) st.world with ⟨e | db1, w⟩
  · rfl
  · simp only
    rcases ext.sqlOpen (c2.fullPath d) w with ⟨e | db2, w⟩
    · rfl
    · simp only
      rcases ext.Ping db1 w with ⟨_ | e, w⟩
      · simp only
        rcases ext.Ping db2 w with ⟨_ | e, w⟩
        · simp only
          rcases ext.Equal db1 db2 w with ⟨e | eq, w⟩ <;> rfl
        · rfl
      · rfl

theorem runAll_trace {σ : Type} (ext : Extern σ) (c1 c2 : dbConf) (dbs : List String)
    (st : Run σ) :
    (runAll ext c1 c2 dbs st).2.trace = st.trace ++ dbs.map Event.compareOneDB := by
  induction dbs generalizing st with
  | nil => simp [runAll]
  | cons d ds ih => simp [runAll, ih, compareOneDB_trace]

theorem stdout_map_compareOneDB (dbs : List String) :
    stdout (dbs.map Event.compareOneDB) = [] := by
  induction dbs with
  | nil => rfl
  | cons d ds ih => simp [stdout, ih]

theorem compared_map_compareOneDB (dbs : List String) :
    compared (dbs.map Event.compareOneDB) = dbs := by
  induction dbs with
  | nil => rfl
  | cons d ds ih => simp [compared, ih]

theorem listed_map_compareOneDB (dbs : List String) :
    listed (dbs.map Event.compareOneDB) = [] := by
  induction dbs with
  | nil => rfl
  | cons d ds ih => simp [listed, ih]

/-- While every comparison returns equal without error, the loop of `main`
goes on: after a prefix of such comparisons it continues with the rest. -/
theorem mainLoop_append {σ : Type} (ext : Extern σ) (c1 c2 : dbConf)
    (pre rest : List String) (st : Run σ)
    (h : ∀ o ∈ (runAll ext c1 c2 pre st).1, o = (true, none)) :
    mainLoop ext c1 c2 (pre ++ rest) st = mainLoop ext c1 c2 rest (runAll ext c1 c2 pre st).2 := by
  induction pre generalizing st with
  | nil => rfl
  | cons d ds ih =>
    simp only [runAll, List.mem_cons, forall_eq_or_imp] at h
    obtain ⟨h1, h2⟩ := h
    have hc : compareOneDB ext c1 c2 d st = ((true, none), (compareOneDB ext c1 c2 d st).2) :=
      Prod.ext h1 rfl
    simp only [List.cons_append, mainLoop, runAll]
    rw [hc]
    simp only [Bool.not_true, Bool.false_eq_true, if_false]
    exact ih _ h2

/-- The loop of `main` on a database whose comparison does not return equal
without error: one line is printed and the rest of the list is dropped. -/
theorem mainLoop_cons_fail {σ : Type} (ext : Extern σ) (c1 c2 : dbConf) (d : String)
    (post : List String) (st : Run σ)
    (h : (compareOneDB ext c1 c2 d st).1 ≠ (true, none)) :
    mainLoop ext c1 c2 (d :: post) st =
      (compareOneDB ext c1 c2 d st).2.println
        (match (compareOneDB ext c1 c2 d st).1.2 with
          | some err => ext.ErrorStack err
          | none => "false") := by
  simp only [mainLoop]
  rcases hc : compareOneDB ext c1 c2 d st with ⟨⟨eq, _ | err⟩, st1⟩
  · rw [hc] at h
    cases eq with
    | true => exact absurd rfl h
    | false => simp
  · simp

theorem configDiagnostic_cases (flags : Flags) : IsConfigDiagnostic (configDiagnostic flags) := by
  unfold configDiagnostic IsConfigDiagnostic
  split
  · exact Or.inl rfl
  · split
    · exact Or.inr (Or.inl rfl)
    · split
      · exact Or.inr (Or.inr rfl)
      · exact Or.inl rfl

/-- On a configuration error `parseConfig` exits with the argument `-1` after a
single diagnostic, without any external call. -/
theorem parseConfig_configError {σ : Type} (ext : Extern σ) (flags : Flags) (st : Run σ)
    (h : ConfigError flags) :
    parseConfig ext (CommandLine.parsed flags) {} {} st
      = (Except.error (Halt.exit (-1)), st.log (configDiagnostic flags)) := by
  simp only [parseConfig]
  unfold configDiagnostic
  by_cases h0 : flags.url1 = "" ∨ flags.url2 = ""
  · rw [if_pos h0, if_pos h0]
  · rw [if_neg h0, if_neg h0]
    have e1 := (fromString_spec {} flags.url1).2
    have e2 := (fromString_spec {} flags.url2).2
    rcases h1 : ({} : dbConf).fromString flags.url1 with ⟨d1, _ | err1⟩
    · rcases h2 : ({} : dbConf).fromString flags.url2 with ⟨d2, _ | err2⟩
      · simp only
        have hsel : flags.all = false ∧ flags.databases = "" := by
          rcases h with h | h | h | h | h
          · exact absurd (Or.inl h) h0
          · exact absurd (Or.inr h) h0
          · rw [h1] at h; exact absurd rfl h
          · rw [h2] at h; exact absurd rfl h
          · exact h
        simp [hsel.1, hsel.2]
      · simp only
        rw [h2] at e2
        have : err2 = errParse := by
          have := e2 (by simp)
          simpa using this
        subst this
        simp
        rfl
    · simp only
      rw [h1] at e1
      have : err1 = errParse := by
        have := e1 (by simp)
        simpa using this
      subst this
      simp
      rfl

/-- Without a configuration error both URLs are read, and `parseConfig` goes on
to the database selection. -/
theorem parseConfig_of_urls {σ : Type} (ext : Extern σ) (flags : Flags) (st : Run σ)
    (h : ¬ ConfigError flags) :
    parseConfig ext (CommandLine.parsed flags) {} {} st =
      if flags.all then
        match showDatabases ext (({} : dbConf).fromString flags.url1).1 st with
        | (Except.error hl, st1) => (Except.error hl, st1)
        | (Except.ok dbNames1, st1) =>
          match showDatabases ext (({} : dbConf).fromString flags.url2).1 st1 with
          | (Except.error hl, st2) => (Except.error hl, st2)
          | (Except.ok dbNames2, st2) =>
            if dbNames1 = dbNames2 then
              (Except.ok ((({} : dbConf).fromString flags.url1).1,
                (({} : dbConf).fromString flags.url2).1, dbNames1), st2)
            else (Except.error (Halt.exit 0), st2.println "false")
      else
        (Except.ok ((({} : dbConf).fromString flags.url1).1,
          (({} : dbConf).fromString flags.url2).1, Split flags.databases ','), st) := by
  unfold ConfigError at h
  simp only [not_or] at h
  obtain ⟨n1, n2, n3, n4, n5⟩ := h
  have h0 : ¬ (flags.url1 = "" ∨ flags.url2 = "") := fun h => h.elim n1 n2
  simp only [parseConfig]
  rw [if_neg h0]
  rcases h1 : ({} : dbConf).fromString flags.url1 with ⟨d1, _ | err1⟩
  · rcases h2 : ({} : dbConf).fromString flags.url2 with ⟨d2, _ | err2⟩
    · simp only
      by_cases ha : flags.all = true
      · rw [if_pos ha, if_pos ha]
        rcases showDatabases ext d1 st with ⟨hl | l1, st1⟩
        · rfl
        · simp only
          rcases showDatabases ext d2 st1 with ⟨hl | l2, st2⟩
          · rfl
          · simp only [equalStrings_eq]
            by_cases hl : l1 = l2 <;> simp [hl]
      · rw [if_neg ha, if_neg ha]
        have hd : ¬ flags.databases = "" := fun hd => n5 ⟨by simpa using ha, hd⟩
        rw [if_neg hd]
    · rw [h2] at n4; exact absurd (by simp) n4
  · rw [h1] at n3; exact absurd (by simp) n3

/-- Without `-all-databases` the names come from `-databases`. -/
theorem parseConfig_selected {σ : Type} (ext : Extern σ) (flags : Flags) (st : Run σ)
    (h : ¬ ConfigError flags) (ha : flags.all = false) :
    parseConfig ext (CommandLine.parsed flags) {} {} st =
      (Except.ok (conf1 flags, conf2 flags, Split flags.databases ','), st) := by
  rw [parseConfig_of_urls ext flags st h]
  simp [ha, conf1, conf2]

/-- With `-all-databases`, a failure to list the first side ends the run. -/
theorem parseConfig_list1_fails {σ : Type} (ext : Extern σ) (flags : Flags) (st st1 : Run σ)
    (hl : Halt) (h : ¬ ConfigError flags) (ha : flags.all = true)
    (h1 : showDatabases ext (conf1 flags) st = (Except.error hl, st1)) :
    parseConfig ext (CommandLine.parsed flags) {} {} st = (Except.error hl, st1) := by
  unfold conf1 at h1
  rw [parseConfig_of_urls ext flags st h, if_pos ha, h1]

/-- With `-all-databases`, a failure to list the second side ends the run. -/
theorem parseConfig_list2_fails {σ : Type} (ext : Extern σ) (flags : Flags)
    (st st1 st2 : Run σ) (l1 : List String) (hl : Halt)
    (h : ¬ ConfigError flags) (ha : flags.all = true)
    (h1 : showDatabases ext (conf1 flags) st = (Except.ok l1, st1))
    (h2 : showDatabases ext (conf2 flags) st1 = (Except.error hl, st2)) :
    parseConfig ext (CommandLine.parsed flags) {} {} st = (Except.error hl, st2) := by
  unfold conf1 at h1
  unfold conf2 at h2
  rw [parseConfig_of_urls ext flags st h, if_pos ha, h1]
  simp only [h2]

/-- With `-all-databases` and equal lists, the common list is selected. -/
theorem parseConfig_lists_equal {σ : Type} (ext : Extern σ) (flags : Flags)
    (st st1 st2 : Run σ) (l1 l2 : List String)
    (h : ¬ ConfigError flags) (ha : flags.all = true)
    (h1 : showDatabases ext (conf1 flags) st = (Except.ok l1, st1))
    (h2 : showDatabases ext (conf2 flags) st1 = (Except.ok l2, st2)) (he : l1 = l2) :
    parseConfig ext (CommandLine.parsed flags) {} {} st
      = (Except.ok (conf1 flags, conf2 flags, l1), st2) := by
  have h1c := h1
  have h2c := h2
  unfold conf1 at h1c
  unfold conf2 at h2c
  rw [parseConfig_of_urls ext flags st h, if_pos ha, h1c]
  simp only [h2c, he, if_true]
  rfl

/-- With `-all-databases` and different lists, `false` is printed and the
process exits with the argument `0`. -/
theorem parseConfig_lists_differ {σ : Type} (ext : Extern σ) (flags : Flags)
    (st st1 st2 : Run σ) (l1 l2 : List String)
    (h : ¬ ConfigError flags) (ha : flags.all = true)
    (h1 : showDatabases ext (conf1 flags) st = (Except.ok l1, st1))
    (h2 : showDatabases ext (conf2 flags) st1 = (Except.ok l2, st2)) (hne : l1 ≠ l2) :
    parseConfig ext (CommandLine.parsed flags) {} {} st
      = (Except.error (Halt.exit 0), st2.println "false") := by
  unfold conf1 at h1
  unfold conf2 at h2
  rw [parseConfig_of_urls ext flags st h, if_pos ha, h1]
  simp only [h2, hne, if_false]

/-- When `parseConfig` returns, it has printed nothing and compared nothing. -/
theorem parseConfig_ok_trace {σ : Type} (ext : Extern σ) (flags : Flags) (st st1 : Run σ)
    (x : dbConf × dbConf × List String)
    (hp : parseConfig ext (CommandLine.parsed flags) {} {} st = (Except.ok x, st1)) :
    ¬ ConfigError flags ∧ stdout st1.trace = stdout st.trace ∧
      compared st1.trace = compared st.trace := by
  by_cases hc : ConfigError flags
  · rw [parseConfig_configError ext flags st hc] at hp
    simp at hp
  · refine ⟨hc, ?_⟩
    by_cases ha : flags.all = true
    · rcases h1 : showDatabases ext (conf1 flags) st with ⟨hl | l1, s1⟩
      · rw [parseConfig_list1_fails ext flags st s1 hl hc ha h1] at hp
        simp at hp
      · rcases h2 : showDatabases ext (conf2 flags) s1 with ⟨hl | l2, s2⟩
        · rw [parseConfig_list2_fails ext flags st s1 s2 l1 hl hc ha h1 h2] at hp
          simp at hp
        · have t1 := showDatabases_ok_trace ext _ _ _ _ h1
          have t2 := showDatabases_ok_trace ext _ _ _ _ h2
          by_cases he : l1 = l2
          · rw [parseConfig_lists_equal ext flags st s1 s2 l1 l2 hc ha h1 h2 he] at hp
            simp only [Prod.mk.injEq] at hp
            rw [← hp.2, t2, t1]
            simp [stdout_append, compared_append, stdout, compared]
          · rw [parseConfig_lists_differ ext flags st s1 s2 l1 l2 hc ha h1 h2 he] at hp
            simp at hp
    · rw [parseConfig_selected ext flags st hc (by simpa using ha)] at hp
      simp only [Prod.mk.injEq] at hp
      rw [← hp.2]
      exact ⟨rfl, rfl⟩

/-- The function `main` once `parseConfig` has returned. -/
theorem main_of_parseConfig_ok {σ : Type} (ext : Extern σ) (flags : Flags) (w : σ)
    (d1 d2 : dbConf) (dbs : List String) (st : Run σ)
    (hp : parseConfig ext (CommandLine.parsed flags) {} {} { world := w, trace := [] }
      = (Except.ok (d1, d2, dbs), st)) :
    main ext (CommandLine.parsed flags) w = (none, mainLoop ext d1 d2 dbs
      { st with world := ext.SetLevelByString flags.logLevel st.world }) := by
  unfold main
  rw [hp]
  rfl

/-- The function `main` once `parseConfig` has halted. -/
theorem main_of_parseConfig_halt {σ : Type} (ext : Extern σ) (flags : Flags) (w : σ)
    (hl : Halt) (st : Run σ)
    (hp : parseConfig ext (CommandLine.parsed flags) {} {} { world := w, trace := [] }
      = (Except.error hl, st)) :
    main ext (CommandLine.parsed flags) w = (some hl, st) := by
  unfold main
  rw [hp]

/-! ## The loop of `main` -/

/-- The loop compares a prefix of the list, in order, and then prints exactly
one line. -/
theorem mainLoop_trace {σ : Type} (ext : Extern σ) (c1 c2 : dbConf) (dbs : List String)
    (st : Run σ) :
    ∃ k line, k ≤ dbs.length ∧
      (mainLoop ext c1 c2 dbs st).trace
        = st.trace ++ (dbs.take k).map Event.compareOneDB ++ [Event.println line] := by
  induction dbs generalizing st with
  | nil => exact ⟨0, "true", le_refl _, by simp [mainLoop, Run.println, Run.log]⟩
  | cons d ds ih =>
    by_cases hc : (compareOneDB ext c1 c2 d st).1 = (true, none)
    · have hm := mainLoop_append ext c1 c2 [d] ds st (by simpa [runAll] using hc)
      simp only [List.singleton_append, runAll] at hm
      obtain ⟨k, line, hk, ht⟩ := ih (compareOneDB ext c1 c2 d st).2
      refine ⟨k + 1, line, by simpa using hk, ?_⟩
      rw [hm, ht, compareOneDB_trace]
      simp
    · refine ⟨1, (match (compareOneDB ext c1 c2 d st).1.2 with
          | some err => ext.ErrorStack err
          | none => "false"), by simp, ?_⟩
      rw [mainLoop_cons_fail ext c1 c2 d ds st hc]
      simp [Run.println, Run.log, compareOneDB_trace]

/-- When no comparison returns an error, the line the loop prints is the
conjunction of the per-database results. -/
theorem mainLoop_stdout_of_no_error {σ : Type} (ext : Extern σ) (c1 c2 : dbConf)
    (dbs : List String) (st : Run σ)
    (h : ∀ o ∈ (runAll ext c1 c2 dbs st).1, o.2 = none) :
    stdout (mainLoop ext c1 c2 dbs st).trace = stdout st.trace ++
      [if (runAll ext c1 c2 dbs st).1.all (fun o => o.1) then "true" else "false"] := by
  induction dbs generalizing st with
  | nil => simp [mainLoop, runAll, Run.println, Run.log, stdout_append, stdout]
  | cons d ds ih =>
    simp only [runAll, List.mem_cons, forall_eq_or_imp] at h
    obtain ⟨h1, h2⟩ := h
    have ht := compareOneDB_trace ext c1 c2 d st
    rcases hc : compareOneDB ext c1 c2 d st with ⟨⟨eq, err⟩, st1⟩
    rw [hc] at h1 h2 ht
    simp only at h1 h2 ht
    subst h1
    cases eq with
    | false =>
      simp [mainLoop, runAll, hc, Run.println, Run.log, stdout_append, stdout, ht]
    | true =>
      have := ih st1 h2
      simp only [mainLoop, runAll, hc, List.all_cons, Bool.true_and, Bool.not_true,
        Bool.false_eq_true, if_false]
      rw [this, ht]
      simp [stdout_append, stdout]

/-! ## Claims on whole runs -/

/-- Claim C4: the overall verdict is the logical AND of the per-database
results.  When `parseConfig` returns the list `dbs` and no comparison of `dbs`
returns an error, `main` returns normally and standard output is exactly one
line: `true` if every comparison returned equal, `false` otherwise; for an empty
list it is `true`. -/
theorem verdict_is_conjunction {σ : Type} (ext : Extern σ) (flags : Flags) (w : σ)
    (d1 d2 : dbConf) (dbs : List String) (st : Run σ)
    (hp : parseConfig ext (CommandLine.parsed flags) {} {} { world := w, trace := [] }
      = (Except.ok (d1, d2, dbs), st))
    (hok : ∀ o ∈ (runAll ext d1 d2 dbs
      { st with world := ext.SetLevelByString flags.logLevel st.world }).1, o.2 = none) :
    (main ext (CommandLine.parsed flags) w).1 = none ∧
    stdout (main ext (CommandLine.parsed flags) w).2.trace =
      [if (runAll ext d1 d2 dbs
          { st with world := ext.SetLevelByString flags.logLevel st.world }).1.all
            (fun o => o.1)
        then "true" else "false"] ∧
    (dbs = [] → stdout (main ext (CommandLine.parsed flags) w).2.trace = ["true"]) := by
  have hm := main_of_parseConfig_ok ext flags w d1 d2 dbs st hp
  have ht := (parseConfig_ok_trace ext flags _ st _ hp).2.1
  have hs := mainLoop_stdout_of_no_error ext d1 d2 dbs
    { st with world := ext.SetLevelByString flags.logLevel st.world } hok
  simp only [ht, stdout, List.nil_append] at hs
  refine ⟨by rw [hm], by rw [hm]; exact hs, ?_⟩
  intro he
  subst he
  rw [hm]
  simpa [runAll] using hs

/-- Witness for C4: databases `a` and `b`, both comparing equal. -/
theorem verdict_is_conjunction_witness :
    stdout (main (scripted (fun _ => Except.ok []) (fun _ => none) (fun _ => Except.ok true))
      (CommandLine.parsed { url2 := "root@127.0.0.1:4001", databases := "a,b" }) 0).2.trace
      = ["true"] :=
  (verdict_is_conjunction
    (scripted (fun _ => Except.ok []) (fun _ => none) (fun _ => Except.ok true))
    { url2 := "root@127.0.0.1:4001", databases := "a,b" } 0
    { user := "root", host := "127.0.0.1", port := 4000 }
    { user := "root", host := "127.0.0.1", port := 4001 }
    ["a", "b"] { world := 0, trace := [] } rfl (by decide)).2.1

/-- A run in which `parseConfig` returns and the comparison of `d` is the first
not to return equal without error: the state the run ends in. -/
theorem main_first_failure {σ : Type} (ext : Extern σ) (flags : Flags) (w : σ)
    (d1 d2 : dbConf) (pre post : List String) (d : String) (st st1 : Run σ)
    (o : Bool × Option GoError)
    (hp : parseConfig ext (CommandLine.parsed flags) {} {} { world := w, trace := [] }
      = (Except.ok (d1, d2, pre ++ d :: post), st))
    (hpre : ∀ r ∈ (runAll ext d1 d2 pre
      { st with world := ext.SetLevelByString flags.logLevel st.world }).1, r = (true, none))
    (hd : compareOneDB ext d1 d2 d (runAll ext d1 d2 pre
      { st with world := ext.SetLevelByString flags.logLevel st.world }).2 = (o, st1))
    (hfail : o ≠ (true, none)) :
    (main ext (CommandLine.parsed flags) w).2 = st1.println
      (match o.2 with
        | some err => ext.ErrorStack err
        | none => "false") ∧
    compared (main ext (CommandLine.parsed flags) w).2.trace = pre ++ [d] ∧
    stdout (main ext (CommandLine.parsed flags) w).2.trace =
      [match o.2 with
        | some err => ext.ErrorStack err
        | none => "false"] := by
  have hm := main_of_parseConfig_ok ext flags w d1 d2 _ st hp
  have ht := parseConfig_ok_trace ext flags _ st _ hp
  have ha := mainLoop_append ext d1 d2 pre (d :: post)
    { st with world := ext.SetLevelByString flags.logLevel st.world } hpre
  have hf := mainLoop_cons_fail ext d1 d2 d post (runAll ext d1 d2 pre
    { st with world := ext.SetLevelByString flags.logLevel st.world }).2
    (by rw [hd]; exact hfail)
  have htr := compareOneDB_trace ext d1 d2 d (runAll ext d1 d2 pre
    { st with world := ext.SetLevelByString flags.logLevel st.world }).2
  rw [hd] at hf htr
  simp only at hf htr
  rw [runAll_trace] at htr
  simp only at htr
  have hfin : (main ext (CommandLine.parsed flags) w).2 = st1.println
      (match o.2 with
        | some err => ext.ErrorStack err
        | none => "false") := by
    rw [hm, ha, hf]
  refine ⟨hfin, ?_, ?_⟩
  · rw [hfin]
    simp only [Run.println, Run.log, htr, compared_append, compared_map_compareOneDB, ht.2.2,
      compared, List.append_nil, List.nil_append]
  · rw [hfin]
    simp only [Run.println, Run.log, htr, stdout_append, stdout_map_compareOneDB, ht.2.1,
      stdout, List.append_nil, List.nil_append]

/-- A run with a configuration error: one diagnostic, then `os.Exit(-1)`, in
the untouched initial world. -/
theorem main_configError {σ : Type} (ext : Extern σ) (flags : Flags) (w : σ)
    (h : ConfigError flags) :
    main ext (CommandLine.parsed flags) w
      = (some (Halt.exit (-1)), { world := w, trace := [configDiagnostic flags] }) := by
  rw [main_of_parseConfig_halt ext flags w _ _
    (parseConfig_configError ext flags { world := w, trace := [] } h)]
  rfl

/-- Claim C6: a configuration error is fatal before any comparison begins.  If
a URL is empty or rejected by `fromString`, or neither `-all-databases` nor a
non-empty `-databases` is given, the process exits with a non-zero status
without a call of `showDatabases`, without a call of `compareOneDB`, without any
external call at all, and without printing `true`. -/
theorem config_error_is_fatal {σ : Type} (ext : Extern σ) (flags : Flags) (w : σ)
    (h : flags.url1 = "" ∨ flags.url2 = "" ∨
      (({} : dbConf).fromString flags.url1).2 ≠ none ∨
      (({} : dbConf).fromString flags.url2).2 ≠ none ∨
      (flags.all = false ∧ flags.databases = "")) :
    exitStatus (main ext (CommandLine.parsed flags) w).1 ≠ 0 ∧
    listed (main ext (CommandLine.parsed flags) w).2.trace = [] ∧
    compared (main ext (CommandLine.parsed flags) w).2.trace = [] ∧
    (main ext (CommandLine.parsed flags) w).2.world = w ∧
    "true" ∉ stdout (main ext (CommandLine.parsed flags) w).2.trace := by
  rw [main_configError ext flags w h]
  have hx : exitStatus (some (Halt.exit (-1))) ≠ 0 := by decide
  rcases configDiagnostic_cases flags with he | he | he <;> rw [he]
  · exact ⟨hx, rfl, rfl, rfl, by simp [stdout]⟩
  · refine ⟨hx, rfl, rfl, rfl, ?_⟩
    show "true" ∉ stdout [Event.println "url1 error: format: user[:password]@host:port"]
    decide
  · refine ⟨hx, rfl, rfl, rfl, ?_⟩
    show "true" ∉ stdout [Event.println "url2 error: format: user[:password]@host:port"]
    decide

/-- Witness for C6: the default flags, where `-url2` is empty. -/
theorem config_error_is_fatal_witness :
    exitStatus (main (scripted (fun _ => Except.ok []) (fun _ => none)
      (fun _ => Except.ok true)) (CommandLine.parsed {}) 0).1 ≠ 0 ∧
    listed (main (scripted (fun _ => Except.ok []) (fun _ => none)
      (fun _ => Except.ok true)) (CommandLine.parsed {}) 0).2.trace = [] ∧
    compared (main (scripted (fun _ => Except.ok []) (fun _ => none)
      (fun _ => Except.ok true)) (CommandLine.parsed {}) 0).2.trace = [] ∧
    (main (scripted (fun _ => Except.ok []) (fun _ => none)
      (fun _ => Except.ok true)) (CommandLine.parsed {}) 0).2.world = 0 ∧
    "true" ∉ stdout (main (scripted (fun _ => Except.ok []) (fun _ => none)
      (fun _ => Except.ok true)) (CommandLine.parsed {}) 0).2.trace :=
  config_error_is_fatal
    (scripted (fun _ => Except.ok []) (fun _ => none) (fun _ => Except.ok true)) {} 0
    (Or.inr (Or.inl rfl))

/-- A well-formed URL is not empty. -/
theorem wellFormed_ne_empty (url : String) (h : WellFormedURL url) : url ≠ "" := by
  rintro rfl
  have := (fromString_spec {} "").1.2 h
  exact absurd this (by decide)

/-- Two well-formed URLs and `-all-databases` make no configuration error. -/
theorem not_configError_of_wellFormed (flags : Flags) (hall : flags.all = true)
    (hu1 : WellFormedURL flags.url1) (hu2 : WellFormedURL flags.url2) :
    ¬ ConfigError flags := by
  rintro (h | h | h | h | h)
  · exact wellFormed_ne_empty _ hu1 h
  · exact wellFormed_ne_empty _ hu2 h
  · exact h ((fromString_spec {} flags.url1).1.2 hu1)
  · exact h ((fromString_spec {} flags.url2).1.2 hu2)
  · rw [hall] at h
    exact absurd h.1 (by decide)

/-- Claim C8 (scenario D): in `-all-databases` mode with two well-formed URLs,
when the two sides return different lists of database names the process prints
exactly the single line `false`, exits with status 0 and never calls
`compareOneDB`. -/
theorem differing_lists_print_false {σ : Type} (ext : Extern σ) (flags : Flags) (w : σ)
    (l1 l2 : List String) (st1 st2 : Run σ)
    (hall : flags.all = true)
    (hu1 : WellFormedURL flags.url1) (hu2 : WellFormedURL flags.url2)
    (h1 : showDatabases ext (({} : dbConf).fromString flags.url1).1 { world := w, trace := [] }
      = (Except.ok l1, st1))
    (h2 : showDatabases ext (({} : dbConf).fromString flags.url2).1 st1 = (Except.ok l2, st2))
    (hne : l1 ≠ l2) :
    stdout (main ext (CommandLine.parsed flags) w).2.trace = ["false"] ∧
    exitStatus (main ext (CommandLine.parsed flags) w).1 = 0 ∧
    (main ext (CommandLine.parsed flags) w).1 = some (Halt.exit 0) ∧
    compared (main ext (CommandLine.parsed flags) w).2.trace = [] := by
  have hc := not_configError_of_wellFormed flags hall hu1 hu2
  have hp := parseConfig_lists_differ ext flags _ st1 st2 l1 l2 hc hall h1 h2 hne
  have t1 := showDatabases_ok_trace ext _ _ _ _ h1
  have t2 := showDatabases_ok_trace ext _ _ _ _ h2
  rw [main_of_parseConfig_halt ext flags w _ _ hp]
  refine ⟨?_, ?_, ?_, ?_⟩ <;>
    simp [Run.println, Run.log, t2, t1, stdout_append, compared_append, stdout, compared,
      exitStatus]

/-- Witness for C8: side one lists `a`, side two lists `b`. -/
theorem differing_lists_print_false_witness :
    stdout (main (scripted (fun k => if k = 0 then Except.ok ["a"] else Except.ok ["b"])
        (fun _ => none) (fun _ => Except.ok true))
      (CommandLine.parsed { url2 := "root@127.0.0.1:4001", all := true }) 0).2.trace = ["false"] ∧
    exitStatus (main (scripted (fun k => if k = 0 then Except.ok ["a"] else Except.ok ["b"])
        (fun _ => none) (fun _ => Except.ok true))
      (CommandLine.parsed { url2 := "root@127.0.0.1:4001", all := true }) 0).1 = 0 :=
  have h := differing_lists_print_false
    (scripted (fun k => if k = 0 then Except.ok ["a"] else Except.ok ["b"])
      (fun _ => none) (fun _ => Except.ok true))
    { url2 := "root@127.0.0.1:4001", all := true } 0 ["a"] ["b"]
    { world := 1, trace := [Event.showDatabases
        { user := "root", host := "127.0.0.1", port := 4000 }] }
    { world := 2, trace := [Event.showDatabases
        { user := "root", host := "127.0.0.1", port := 4000 },
      Event.showDatabases { user := "root", host := "127.0.0.1", port := 4001 }] }
    rfl
    ((fromString_spec {} "root@127.0.0.1:4000").1.1 (by decide))
    ((fromString_spec {} "root@127.0.0.1:4001").1.1 (by decide))
    rfl rfl (by decide)
  ⟨h.1, h.2.1⟩

/-- The function `showDatabases` when `sql.Open` fails. -/
theorem showDatabases_of_openFails {σ : Type} (ext : Extern σ) (c : dbConf) (st : Run σ)
    (err : GoError) (h : OpenFails ext c st.world err) :
    ∃ st1, showDatabases ext c st = (Except.error (Halt.exit (-1)), st1) ∧
      st1.trace = st.trace ++ [Event.showDatabases c,
        Event.println ("database config error: " ++ err.Error)] := by
  obtain ⟨w1, h1⟩ := h
  unfold showDatabases
  simp only [Run.log, Run.println, h1]
  exact ⟨_, rfl, by simp⟩

/-- The function `showDatabases` when `diff.ShowDatabases` fails. -/
theorem showDatabases_of_listFails {σ : Type} (ext : Extern σ) (c : dbConf) (st : Run σ)
    (err : GoError) (h : ListFails ext c st.world err) :
    ∃ st1, showDatabases ext c st = (Except.error (Halt.exit (-1)), st1) ∧
      st1.trace = st.trace ++ [Event.showDatabases c, Event.println (ext.ErrorStack err)] := by
  obtain ⟨db, w1, w2, h1, h2⟩ := h
  unfold showDatabases
  simp only [Run.log, Run.println, h1, h2]
  exact ⟨_, rfl, by simp⟩

/-- The function `showDatabases` when both external calls succeed. -/
theorem showDatabases_of_lists {σ : Type} (ext : Extern σ) (c : dbConf) (st : Run σ)
    (names : List String) (w1 : σ) (h : ListsNames ext c st.world names w1) :
    showDatabases ext c st
      = (Except.ok names, { world := w1, trace := st.trace ++ [Event.showDatabases c] }) := by
  obtain ⟨db, w2, w3, h1, h2, h3⟩ := h
  unfold showDatabases
  simp only [Run.log, h1, h2, h3]

/-- The three outcomes of listing one side. -/
theorem listing_side_cases {σ : Type} (ext : Extern σ) (c : dbConf) (w : σ) :
    (∃ err, OpenFails ext c w err) ∨ (∃ err, ListFails ext c w err) ∨
    (∃ names w1, ListsNames ext c w names w1) := by
  rcases h1 : ext.sqlOpen (showDatabasesSrc c) w with ⟨err | db, w2⟩
  · exact Or.inl ⟨err, w2, h1⟩
  · rcases h2 : ext.ShowDatabases db w2 with ⟨err | names, w3⟩
    · exact Or.inr (Or.inl ⟨err, db, w2, w3, h1, h2⟩)
    · exact Or.inr (Or.inr ⟨names, _, db, w2, w3, h1, h2, rfl⟩)

/-- The function `compareOneDB` when one of its external calls fails. -/
theorem compareOneDB_of_fails {σ : Type} (ext : Extern σ) (c1 c2 : dbConf) (d : String)
    (st : Run σ) (err : GoError) (h : CompareFails ext c1 c2 d st.world err) :
    (compareOneDB ext c1 c2 d st).1 = (false, some (GoError.trace err)) := by
  unfold compareOneDB
  rcases h with ⟨w1, h1⟩ | ⟨db1, w1, w2, h1, h2⟩ | ⟨db1, w1, db2, w2, w3, h1, h2, h3⟩ |
    ⟨db1, w1, db2, w2, w3, w4, h1, h2, h3, h4⟩ |
    ⟨db1, w1, db2, w2, w3, w4, w5, h1, h2, h3, h4, h5⟩
  · simp only [Run.log, h1]
  · simp only [Run.log, h1, h2]
  · simp only [Run.log, h1, h2, h3]
  · simp only [Run.log, h1, h2, h3, h4]
  · simp only [Run.log, h1, h2, h3, h4, h5]

/-- The function `compareOneDB` when all its external calls succeed. -/
theorem compareOneDB_of_yields {σ : Type} (ext : Extern σ) (c1 c2 : dbConf) (d : String)
    (st : Run σ) (eq : Bool) (h : CompareYields ext c1 c2 d st.world eq) :
    (compareOneDB ext c1 c2 d st).1 = (eq, none) := by
  obtain ⟨db1, w1, db2, w2, w3, w4, w5, h1, h2, h3, h4, h5⟩ := h
  unfold compareOneDB
  simp only [Run.log, h1, h2, h3, h4, h5]

/-- The four ways a run can go once `flag.Parse()` has returned. -/
theorem run_cases {σ : Type} (ext : Extern σ) (flags : Flags) (w : σ) :
    ConfigError flags ∨
    (¬ ConfigError flags ∧ flags.all = true ∧ ListingFails ext flags w) ∨
    (¬ ConfigError flags ∧ flags.all = true ∧ ListsDiffer ext flags w) ∨
    (∃ d1 d2 dbs st, parseConfig ext (CommandLine.parsed flags) {} {}
      { world := w, trace := [] } = (Except.ok (d1, d2, dbs), st)) := by
  by_cases hc : ConfigError flags
  · exact Or.inl hc
  · right
    by_cases ha : flags.all = true
    · rcases listing_side_cases ext (conf1 flags) w with ⟨err, h1⟩ | ⟨err, h1⟩ |
        ⟨l1, w1, h1⟩
      · exact Or.inl ⟨hc, ha, err, Or.inl (Or.inl h1)⟩
      · exact Or.inl ⟨hc, ha, err, Or.inr (Or.inl h1)⟩
      · rcases listing_side_cases ext (conf2 flags) w1 with ⟨err, h2⟩ | ⟨err, h2⟩ |
          ⟨l2, w2, h2⟩
        · exact Or.inl ⟨hc, ha, err, Or.inl (Or.inr ⟨l1, w1, h1, h2⟩)⟩
        · exact Or.inl ⟨hc, ha, err, Or.inr (Or.inr ⟨l1, w1, h1, h2⟩)⟩
        · by_cases he : l1 = l2
          · exact Or.inr (Or.inr ⟨_, _, _, _,
              parseConfig_lists_equal ext flags _ _ _ l1 l2 hc ha
                (showDatabases_of_lists ext (conf1 flags) { world := w, trace := [] } l1 w1 h1)
                (showDatabases_of_lists ext (conf2 flags) _ l2 w2 h2) he⟩)
          · exact Or.inr (Or.inl ⟨hc, ha, l1, w1, l2, w2, h1, h2, he⟩)
    · exact Or.inr (Or.inr ⟨_, _, _, _,
        parseConfig_selected ext flags _ hc (by simpa using ha)⟩)

/-- A run in which `sql.Open` fails during the listing: the diagnostic built
from that error, `os.Exit(-1)`, no comparison. -/
theorem main_listing_open_fails {σ : Type} (ext : Extern σ) (flags : Flags) (w : σ)
    (err : GoError) (hc : ¬ ConfigError flags) (ha : flags.all = true)
    (h : ListingOpenFails ext flags w err) :
    (main ext (CommandLine.parsed flags) w).1 = some (Halt.exit (-1)) ∧
    compared (main ext (CommandLine.parsed flags) w).2.trace = [] ∧
    stdout (main ext (CommandLine.parsed flags) w).2.trace
      = ["database config error: " ++ err.Error] := by
  rcases h with h1 | ⟨l1, w1, h1, h2⟩
  · obtain ⟨st1, hs, ht⟩ :=
      showDatabases_of_openFails ext (conf1 flags) { world := w, trace := [] } err h1
    rw [main_of_parseConfig_halt ext flags w _ _
      (parseConfig_list1_fails ext flags _ st1 _ hc ha hs)]
    refine ⟨rfl, ?_, ?_⟩ <;> simp [ht, stdout, compared]
  · have hs1 := showDatabases_of_lists ext (conf1 flags) { world := w, trace := [] } l1 w1 h1
    obtain ⟨st2, hs2, ht⟩ := showDatabases_of_openFails ext (conf2 flags)
      { world := w1, trace := [] ++ [Event.showDatabases (conf1 flags)] } err h2
    rw [main_of_parseConfig_halt ext flags w _ _
      (parseConfig_list2_fails ext flags _ _ st2 l1 _ hc ha hs1 hs2)]
    refine ⟨rfl, ?_, ?_⟩ <;> simp [ht, stdout, compared]

/-- A run in which `diff.ShowDatabases` fails: the error trace of that error,
`os.Exit(-1)`, no comparison. -/
theorem main_listing_list_fails {σ : Type} (ext : Extern σ) (flags : Flags) (w : σ)
    (err : GoError) (hc : ¬ ConfigError flags) (ha : flags.all = true)
    (h : ListingListFails ext flags w err) :
    (main ext (CommandLine.parsed flags) w).1 = some (Halt.exit (-1)) ∧
    compared (main ext (CommandLine.parsed flags) w).2.trace = [] ∧
    stdout (main ext (CommandLine.parsed flags) w).2.trace = [ext.ErrorStack err] := by
  rcases h with h1 | ⟨l1, w1, h1, h2⟩
  · obtain ⟨st1, hs, ht⟩ :=
      showDatabases_of_listFails ext (conf1 flags) { world := w, trace := [] } err h1
    rw [main_of_parseConfig_halt ext flags w _ _
      (parseConfig_list1_fails ext flags _ st1 _ hc ha hs)]
    refine ⟨rfl, ?_, ?_⟩ <;> simp [ht, stdout, compared]
  · have hs1 := showDatabases_of_lists ext (conf1 flags) { world := w, trace := [] } l1 w1 h1
    obtain ⟨st2, hs2, ht⟩ := showDatabases_of_listFails ext (conf2 flags)
      { world := w1, trace := [] ++ [Event.showDatabases (conf1 flags)] } err h2
    rw [main_of_parseConfig_halt ext flags w _ _
      (parseConfig_list2_fails ext flags _ _ st2 l1 _ hc ha hs1 hs2)]
    refine ⟨rfl, ?_, ?_⟩ <;> simp [ht, stdout, compared]

/-- A run in which the listing fails ends by `os.Exit(-1)`. -/
theorem main_listing_fails {σ : Type} (ext : Extern σ) (flags : Flags) (w : σ)
    (hc : ¬ ConfigError flags) (ha : flags.all = true) (h : ListingFails ext flags w) :
    (main ext (CommandLine.parsed flags) w).1 = some (Halt.exit (-1)) := by
  obtain ⟨err, h | h⟩ := h
  · exact (main_listing_open_fails ext flags w err hc ha h).1
  · exact (main_listing_list_fails ext flags w err hc ha h).1

/-- A run in which the two lists differ: the line `false`, `os.Exit(0)`, no
comparison. -/
theorem main_lists_differ {σ : Type} (ext : Extern σ) (flags : Flags) (w : σ)
    (hc : ¬ ConfigError flags) (ha : flags.all = true) (h : ListsDiffer ext flags w) :
    (main ext (CommandLine.parsed flags) w).1 = some (Halt.exit 0) ∧
    compared (main ext (CommandLine.parsed flags) w).2.trace = [] ∧
    stdout (main ext (CommandLine.parsed flags) w).2.trace = ["false"] := by
  obtain ⟨l1, w1, l2, w2, h1, h2, hne⟩ := h
  have hs1 := showDatabases_of_lists ext (conf1 flags) { world := w, trace := [] } l1 w1 h1
  have hs2 := showDatabases_of_lists ext (conf2 flags)
    { world := w1, trace := [] ++ [Event.showDatabases (conf1 flags)] } l2 w2 h2
  rw [main_of_parseConfig_halt ext flags w _ _
    (parseConfig_lists_differ ext flags _ _ _ l1 l2 hc ha hs1 hs2 hne)]
  refine ⟨rfl, ?_, ?_⟩ <;> simp [Run.println, Run.log, stdout, compared]

/-- A run in which `parseConfig` returns and every comparison returns equal
without error: the single line `true`. -/
theorem main_all_equal {σ : Type} (ext : Extern σ) (flags : Flags) (w : σ)
    (d1 d2 : dbConf) (dbs : List String) (st : Run σ)
    (hp : parseConfig ext (CommandLine.parsed flags) {} {} { world := w, trace := [] }
      = (Except.ok (d1, d2, dbs), st))
    (hall : ∀ r ∈ (runAll ext d1 d2 dbs
      { st with world := ext.SetLevelByString flags.logLevel st.world }).1, r = (true, none)) :
    stdout (main ext (CommandLine.parsed flags) w).2.trace = ["true"] ∧
    compared (main ext (CommandLine.parsed flags) w).2.trace = dbs := by
  have hm := main_of_parseConfig_ok ext flags w d1 d2 dbs st hp
  have ht := parseConfig_ok_trace ext flags _ st _ hp
  have ha := mainLoop_append ext d1 d2 dbs []
    { st with world := ext.SetLevelByString flags.logLevel st.world } hall
  rw [List.append_nil] at ha
  rw [hm, ha]
  refine ⟨?_, ?_⟩ <;>
    simp [mainLoop, Run.println, Run.log, runAll_trace, stdout_append, compared_append,
      stdout_map_compareOneDB, compared_map_compareOneDB, ht.2.1, ht.2.2, stdout, compared]

/-- A run in which `parseConfig` returns ends with `main` returning, after
exactly one line on standard output. -/
theorem main_compare_stage {σ : Type} (ext : Extern σ) (flags : Flags) (w : σ)
    (d1 d2 : dbConf) (dbs : List String) (st : Run σ)
    (hp : parseConfig ext (CommandLine.parsed flags) {} {} { world := w, trace := [] }
      = (Except.ok (d1, d2, dbs), st)) :
    (main ext (CommandLine.parsed flags) w).1 = none ∧
    (stdout (main ext (CommandLine.parsed flags) w).2.trace).length = 1 := by
  have hm := main_of_parseConfig_ok ext flags w d1 d2 dbs st hp
  have ht := parseConfig_ok_trace ext flags _ st _ hp
  obtain ⟨k, line, _, hk⟩ := mainLoop_trace ext d1 d2 dbs
    { st with world := ext.SetLevelByString flags.logLevel st.world }
  rw [hm]
  refine ⟨rfl, ?_⟩
  simp only [hk, stdout_append, stdout_map_compareOneDB, ht.2.1, stdout, List.append_nil,
    List.nil_append, List.length_singleton]

/-- Claim C5: the loop of `main` is fail-fast.  The databases are compared in
list order: all of them when every comparison returns equal without error;
otherwise, at the first database `d` whose comparison does not, one line is
printed (`false` for not-equal, the error trace for an error), it is the last
event of the run, and the databases compared are exactly those up to and
including `d`: none after it. -/
theorem main_fail_fast {σ : Type} (ext : Extern σ) (flags : Flags) (w : σ)
    (d1 d2 : dbConf) (dbs : List String) (st : Run σ)
    (hp : parseConfig ext (CommandLine.parsed flags) {} {} { world := w, trace := [] }
      = (Except.ok (d1, d2, dbs), st)) :
    ((∀ r ∈ (runAll ext d1 d2 dbs
        { st with world := ext.SetLevelByString flags.logLevel st.world }).1,
        r = (true, none)) →
      compared (main ext (CommandLine.parsed flags) w).2.trace = dbs) ∧
    (∀ pre d post o st1, dbs = pre ++ d :: post →
      (∀ r ∈ (runAll ext d1 d2 pre
        { st with world := ext.SetLevelByString flags.logLevel st.world }).1,
        r = (true, none)) →
      compareOneDB ext d1 d2 d (runAll ext d1 d2 pre
        { st with world := ext.SetLevelByString flags.logLevel st.world }).2 = (o, st1) →
      o ≠ (true, none) →
      (main ext (CommandLine.parsed flags) w).2 = st1.println
        (match o.2 with
          | some err => ext.ErrorStack err
          | none => "false") ∧
      compared (main ext (CommandLine.parsed flags) w).2.trace = pre ++ [d] ∧
      stdout (main ext (CommandLine.parsed flags) w).2.trace =
        [match o.2 with
          | some err => ext.ErrorStack err
          | none => "false"]) := by
  refine ⟨fun hall => (main_all_equal ext flags w d1 d2 dbs st hp hall).2, ?_⟩
  intro pre d post o st1 hdbs hpre hd hfail
  subst hdbs
  exact main_first_failure ext flags w d1 d2 pre post d st st1 o hp hpre hd hfail

/-- Witness for C5: of `a`, `b`, `c` the second compares not-equal. -/
theorem main_fail_fast_witness :
    compared (main (scripted (fun _ => Except.ok []) (fun _ => none)
        (fun k => Except.ok (decide (k < 2))))
      (CommandLine.parsed { url2 := "root@127.0.0.1:4001", databases := "a,b,c" }) 0).2.trace
      = ["a"] ++ ["b"] ∧
    stdout (main (scripted (fun _ => Except.ok []) (fun _ => none)
        (fun k => Except.ok (decide (k < 2))))
      (CommandLine.parsed { url2 := "root@127.0.0.1:4001", databases := "a,b,c" }) 0).2.trace
      = ["false"] :=
  ((main_fail_fast
    (scripted (fun _ => Except.ok []) (fun _ => none) (fun k => Except.ok (decide (k < 2))))
    { url2 := "root@127.0.0.1:4001", databases := "a,b,c" } 0
    { user := "root", host := "127.0.0.1", port := 4000 }
    { user := "root", host := "127.0.0.1", port := 4001 }
    ["a", "b", "c"] { world := 0, trace := [] } rfl).2
    ["a"] "b" ["c"] (false, none)
    { world := 4, trace := [Event.compareOneDB "a", Event.compareOneDB "b"] }
    rfl (by decide) rfl (by decide)).2

/-! ## Claims C3 and C7: verdict line and exit status -/

theorem stdoutText_of_stdout_nil (t : List Event) (h : stdout t = []) : stdoutText t = "" := by
  simp [stdoutText, h, unlines]

theorem stdoutText_of_stdout_single (t : List Event) (x : String) (h : stdout t = [x]) :
    stdoutText t = x ++ "\n" := by
  simp [stdoutText, h, unlines]

/-- A run in which `flag.Parse()` ends the process on `-h`. -/
theorem main_help {σ : Type} (ext : Extern σ) (w : σ) :
    main ext CommandLine.help w
      = (some (Halt.exit 0), { world := w, trace := [Event.flagUsage] }) := rfl

/-- A run in which `flag.Parse()` rejects the command line. -/
theorem main_rejected {σ : Type} (ext : Extern σ) (w : σ) :
    main ext CommandLine.rejected w
      = (some (Halt.exit 2), { world := w, trace := [Event.flagUsage] }) := rfl

/-- Claim C3 as stated fails: with a `-url2` that `fromString` rejects, standard
output holds the `url2 error` diagnostic and no verdict line, neither `false`
nor `true`. -/
theorem url_parse_failure_prints_no_verdict :
    (({} : dbConf).fromString "root-127.0.0.1").2 ≠ none ∧
    stdout (main (scripted (fun _ => Except.ok []) (fun _ => none) (fun _ => Except.ok true))
      (CommandLine.parsed { url2 := "root-127.0.0.1", databases := "a" }) 0).2.trace
      = ["url2 error: format: user[:password]@host:port"] ∧
    "false" ∉ stdout (main (scripted (fun _ => Except.ok []) (fun _ => none)
      (fun _ => Except.ok true))
      (CommandLine.parsed { url2 := "root-127.0.0.1", databases := "a" }) 0).2.trace ∧
    "true" ∉ stdout (main (scripted (fun _ => Except.ok []) (fun _ => none)
      (fun _ => Except.ok true))
      (CommandLine.parsed { url2 := "root-127.0.0.1", databases := "a" }) 0).2.trace ∧
    verdictLines (main (scripted (fun _ => Except.ok []) (fun _ => none)
      (fun _ => Except.ok true))
      (CommandLine.parsed { url2 := "root-127.0.0.1", databases := "a" }) 0).2.trace = [] := by
  decide

/-- Claim C3, amended: what standard output holds, as text, in every kind of
run.  It is exactly the verdict line `true` when `parseConfig` returns and
every selected database compares equal without error, and exactly the verdict
line `false` when an inequality was found (the two lists of `-all-databases`
differ, or the first comparison not to return equal without error has `Equal`
return not-equal).  In every other run the program prints no verdict of its
own: nothing when `flag.Parse()` ends the process or a URL or the selection is
missing; exactly its `urlN error` line when `fromString` rejects a URL; exactly
`database config error: ` with the error text when `sql.Open` fails during the
listing; exactly `errors.ErrorStack(err)` and a newline when
`diff.ShowDatabases` fails with `err`, or when a call of a comparison
(`sql.Open`, `Ping`, `Equal`) fails and `err` is the traced error. -/
theorem stdout_verdict {σ : Type} (ext : Extern σ) (flags : Flags) (w : σ) :
    stdoutText (main ext CommandLine.help w).2.trace = "" ∧
    stdoutText (main ext CommandLine.rejected w).2.trace = "" ∧
    (flags.url1 = "" ∨ flags.url2 = "" →
      stdoutText (main ext (CommandLine.parsed flags) w).2.trace = "") ∧
    (flags.url1 ≠ "" → flags.url2 ≠ "" → (({} : dbConf).fromString flags.url1).2 ≠ none →
      stdoutText (main ext (CommandLine.parsed flags) w).2.trace
        = "url1 error: format: user[:password]@host:port\n" ∧
      verdictLines (main ext (CommandLine.parsed flags) w).2.trace = []) ∧
    (flags.url1 ≠ "" → flags.url2 ≠ "" → (({} : dbConf).fromString flags.url1).2 = none →
      (({} : dbConf).fromString flags.url2).2 ≠ none →
      stdoutText (main ext (CommandLine.parsed flags) w).2.trace
        = "url2 error: format: user[:password]@host:port\n" ∧
      verdictLines (main ext (CommandLine.parsed flags) w).2.trace = []) ∧
    (flags.url1 ≠ "" → flags.url2 ≠ "" → (({} : dbConf).fromString flags.url1).2 = none →
      (({} : dbConf).fromString flags.url2).2 = none →
      flags.all = false → flags.databases = "" →
      stdoutText (main ext (CommandLine.parsed flags) w).2.trace = "") ∧
    (¬ ConfigError flags → flags.all = true → ∀ err, ListingOpenFails ext flags w err →
      stdoutText (main ext (CommandLine.parsed flags) w).2.trace
        = "database config error: " ++ err.Error ++ "\n") ∧
    (¬ ConfigError flags → flags.all = true → ∀ err, ListingListFails ext flags w err →
      stdoutText (main ext (CommandLine.parsed flags) w).2.trace
        = ext.ErrorStack err ++ "\n") ∧
    (¬ ConfigError flags → flags.all = true → ListsDiffer ext flags w →
      stdoutText (main ext (CommandLine.parsed flags) w).2.trace = "false\n" ∧
      verdictLines (main ext (CommandLine.parsed flags) w).2.trace = ["false"]) ∧
    (∀ d1 d2 dbs st, parseConfig ext (CommandLine.parsed flags) {} {}
        { world := w, trace := [] } = (Except.ok (d1, d2, dbs), st) →
      ((∀ r ∈ (runAll ext d1 d2 dbs
          { st with world := ext.SetLevelByString flags.logLevel st.world }).1,
          r = (true, none)) →
        stdoutText (main ext (CommandLine.parsed flags) w).2.trace = "true\n" ∧
        verdictLines (main ext (CommandLine.parsed flags) w).2.trace = ["true"]) ∧
      (∀ pre d post, dbs = pre ++ d :: post →
        (∀ r ∈ (runAll ext d1 d2 pre
          { st with world := ext.SetLevelByString flags.logLevel st.world }).1,
          r = (true, none)) →
        (CompareYields ext d1 d2 d (runAll ext d1 d2 pre
            { st with world := ext.SetLevelByString flags.logLevel st.world }).2.world false →
          stdoutText (main ext (CommandLine.parsed flags) w).2.trace = "false\n" ∧
          verdictLines (main ext (CommandLine.parsed flags) w).2.trace = ["false"]) ∧
        (∀ err, CompareFails ext d1 d2 d (runAll ext d1 d2 pre
            { st with world := ext.SetLevelByString flags.logLevel st.world }).2.world err →
          stdoutText (main ext (CommandLine.parsed flags) w).2.trace
            = ext.ErrorStack (GoError.trace err) ++ "\n"))) := by
  have verdict : ∀ (t : List Event) (x : String), stdout t = [x] →
      ∀ ls, verdictLinesOf (x ++ "\n") = ls → verdictLines t = ls := by
    intro t x hx ls hls
    unfold verdictLines
    rw [stdoutText_of_stdout_single t x hx, hls]
  have cfg : ∀ e, ConfigError flags → configDiagnostic flags = e →
      stdout (main ext (CommandLine.parsed flags) w).2.trace = stdout [e] := by
    intro e hc he
    rw [main_configError ext flags w hc, he]
  refine ⟨rfl, rfl, ?_, ?_, ?_, ?_, ?_, ?_, ?_, ?_⟩
  · intro h
    have hc : ConfigError flags := h.elim Or.inl (fun h => Or.inr (Or.inl h))
    exact stdoutText_of_stdout_nil _ (cfg Event.printDefaults hc (by simp [configDiagnostic, h]))
  · intro n1 n2 h
    have hc : ConfigError flags := Or.inr (Or.inr (Or.inl h))
    have hs := cfg (Event.println "url1 error: format: user[:password]@host:port") hc
      (by simp [configDiagnostic, n1, n2, h])
    exact ⟨stdoutText_of_stdout_single _ _ hs, verdict _ _ hs _ (by decide)⟩
  · intro n1 n2 h1 h2
    have hc : ConfigError flags := Or.inr (Or.inr (Or.inr (Or.inl h2)))
    have hs := cfg (Event.println "url2 error: format: user[:password]@host:port") hc
      (by simp [configDiagnostic, n1, n2, h1, h2])
    exact ⟨stdoutText_of_stdout_single _ _ hs, verdict _ _ hs _ (by decide)⟩
  · intro n1 n2 h1 h2 ha hd
    have hc : ConfigError flags := Or.inr (Or.inr (Or.inr (Or.inr ⟨ha, hd⟩)))
    exact stdoutText_of_stdout_nil _ (cfg Event.printDefaults hc
      (by simp [configDiagnostic, n1, n2, h1, h2]))
  · intro hc ha err h
    exact stdoutText_of_stdout_single _ _ (main_listing_open_fails ext flags w err hc ha h).2.2
  · intro hc ha err h
    exact stdoutText_of_stdout_single _ _ (main_listing_list_fails ext flags w err hc ha h).2.2
  · intro hc ha h
    have hs := (main_lists_differ ext flags w hc ha h).2.2
    exact ⟨stdoutText_of_stdout_single _ _ hs, verdict _ _ hs _ (by decide)⟩
  · intro d1 d2 dbs st hp
    refine ⟨fun hall => ?_, ?_⟩
    · have hs := (main_all_equal ext flags w d1 d2 dbs st hp hall).1
      exact ⟨stdoutText_of_stdout_single _ _ hs, verdict _ _ hs _ (by decide)⟩
    · intro pre d post hdbs hpre
      subst hdbs
      refine ⟨fun hy => ?_, fun err hf => ?_⟩
      · have ho := compareOneDB_of_yields ext d1 d2 d _ false hy
        rcases hcmp : compareOneDB ext d1 d2 d (runAll ext d1 d2 pre
          { st with world := ext.SetLevelByString flags.logLevel st.world }).2 with ⟨o, st1⟩
        rw [hcmp] at ho
        simp only at ho
        subst ho
        have hs : stdout (main ext (CommandLine.parsed flags) w).2.trace = ["false"] :=
          (main_first_failure ext flags w d1 d2 pre post d st st1 _ hp hpre hcmp
            (by simp)).2.2
        exact ⟨stdoutText_of_stdout_single _ _ hs, verdict _ _ hs _ (by decide)⟩
      · have ho := compareOneDB_of_fails ext d1 d2 d _ err hf
        rcases hcmp : compareOneDB ext d1 d2 d (runAll ext d1 d2 pre
          { st with world := ext.SetLevelByString flags.logLevel st.world }).2 with ⟨o, st1⟩
        rw [hcmp] at ho
        simp only at ho
        subst ho
        have hs := (main_first_failure ext flags w d1 d2 pre post d st st1 _ hp hpre hcmp
          (by simp)).2.2
        exact stdoutText_of_stdout_single _ _ hs

/-- Witness for C3, amended: a comparison whose first `Ping` fails prints the
two lines of the error trace and no verdict. -/
theorem stdout_verdict_witness :
    stdoutText (main (scripted (fun _ => Except.ok [])
        (fun _ => some (GoError.ext "connection refused")) (fun _ => Except.ok true))
      (CommandLine.parsed { url2 := "root@127.0.0.1:4001", databases := "a" }) 0).2.trace
      = "connection refused\nmain.go: \n" :=
  ((stdout_verdict
    (scripted (fun _ => Except.ok []) (fun _ => some (GoError.ext "connection refused"))
      (fun _ => Except.ok true))
    { url2 := "root@127.0.0.1:4001", databases := "a" } 0).2.2.2.2.2.2.2.2.2
    { user := "root", host := "127.0.0.1", port := 4000 }
    { user := "root", host := "127.0.0.1", port := 4001 } ["a"]
    { world := 0, trace := [] } rfl).2 [] "a" [] rfl (by decide) |>.2
    (GoError.ext "connection refused")
    (Or.inr (Or.inr (Or.inl ⟨0, 1, 1, 2, 2, rfl, rfl, rfl⟩)))

/-- Claim C7 as stated fails: in `-all-databases` mode with two well-formed
URLs, a failure to list the databases ends the run with exit status 255, not 0,
although there is no configuration error. -/
theorem listing_failure_exits_nonzero :
    ¬ ConfigError { url2 := "root@127.0.0.1:4001", all := true } ∧
    exitStatus (main (scripted (fun _ => Except.error (GoError.ext "connection refused"))
        (fun _ => none) (fun _ => Except.ok true))
      (CommandLine.parsed { url2 := "root@127.0.0.1:4001", all := true }) 0).1 = 255 := by
  decide

/-- Claim C7, amended: a non-zero exit status is reserved for a command line
that `flag.Parse()` rejects (status 2), for configuration errors and for
failures to list the databases in `-all-databases` mode (status 255).  The
process exits with a non-zero status if and only if `flag.Parse()` rejects the
command line, or there is a configuration error, or `-all-databases` is set and
`sql.Open` or `diff.ShowDatabases` returns an error for one of the two sides.
A `-h` run, every run that ends because the two lists differ, and every run in
which `parseConfig` returns, whatever the comparisons yield (equal, not-equal
or an error such as a connectivity failure), exits with status 0. -/
theorem nonzero_exit_iff {σ : Type} (ext : Extern σ) (cmd : CommandLine) (w : σ) :
    (exitStatus (main ext cmd w).1 ≠ 0 ↔
      (cmd = CommandLine.rejected ∨ ∃ flags, cmd = CommandLine.parsed flags ∧
        (ConfigError flags ∨ (flags.all = true ∧ ListingFails ext flags w)))) ∧
    (cmd = CommandLine.rejected → exitStatus (main ext cmd w).1 = 2) ∧
    (cmd = CommandLine.help → exitStatus (main ext cmd w).1 = 0) ∧
    (∀ flags, cmd = CommandLine.parsed flags →
      (ConfigError flags ∨ (flags.all = true ∧ ListingFails ext flags w)) →
      exitStatus (main ext cmd w).1 = 255) ∧
    (∀ flags, cmd = CommandLine.parsed flags →
      ¬ ConfigError flags → flags.all = true → ListsDiffer ext flags w →
      exitStatus (main ext cmd w).1 = 0) ∧
    (∀ flags x st, cmd = CommandLine.parsed flags →
      parseConfig ext cmd {} {} { world := w, trace := [] } = (Except.ok x, st) →
      exitStatus (main ext cmd w).1 = 0) ∧
    (∀ flags d1 d2 d post st err, cmd = CommandLine.parsed flags →
      parseConfig ext cmd {} {} { world := w, trace := [] }
        = (Except.ok (d1, d2, d :: post), st) →
      CompareFails ext d1 d2 d (ext.SetLevelByString flags.logLevel st.world) err →
      exitStatus (main ext cmd w).1 = 0) := by
  have h255 : exitStatus (some (Halt.exit (-1))) = 255 := by decide
  have h0 : exitStatus (some (Halt.exit 0)) = 0 := by decide
  have h2 : exitStatus (some (Halt.exit 2)) ≠ 0 ∧ exitStatus (some (Halt.exit 2)) = 2 := by
    decide
  have key : ∀ flags : Flags,
      ((ConfigError flags ∨ (flags.all = true ∧ ListingFails ext flags w)) ∧
        exitStatus (main ext (CommandLine.parsed flags) w).1 = 255) ∨
      (¬ (ConfigError flags ∨ (flags.all = true ∧ ListingFails ext flags w)) ∧
        exitStatus (main ext (CommandLine.parsed flags) w).1 = 0) := by
    intro flags
    rcases run_cases ext flags w with hc | ⟨hc, ha, h⟩ | ⟨hc, ha, h⟩ | ⟨d1, d2, dbs, st, hp⟩
    · exact Or.inl ⟨Or.inl hc, by rw [main_configError ext flags w hc]; exact h255⟩
    · exact Or.inl ⟨Or.inr ⟨ha, h⟩, by
        rw [main_listing_fails ext flags w hc ha h]; exact h255⟩
    · refine Or.inr ⟨?_, by rw [(main_lists_differ ext flags w hc ha h).1]; exact h0⟩
      rintro (hc2 | ⟨_, hf⟩)
      · exact hc hc2
      · have hm := (main_lists_differ ext flags w hc ha h).1
        rw [main_listing_fails ext flags w hc ha hf] at hm
        exact absurd hm (by decide)
    · have hc := (parseConfig_ok_trace ext flags _ st _ hp).1
      refine Or.inr ⟨?_, by
        rw [(main_compare_stage ext flags w d1 d2 dbs st hp).1]; rfl⟩
      rintro (hc2 | ⟨ha, hf⟩)
      · exact hc hc2
      · have hm := (main_compare_stage ext flags w d1 d2 dbs st hp).1
        rw [main_listing_fails ext flags w hc ha hf] at hm
        exact absurd hm (by decide)
  have hok : ∀ flags x st, parseConfig ext (CommandLine.parsed flags) {} {}
      { world := w, trace := [] } = (Except.ok x, st) →
      exitStatus (main ext (CommandLine.parsed flags) w).1 = 0 := by
    rintro flags ⟨d1, d2, dbs⟩ st hp
    rw [(main_compare_stage ext flags w d1 d2 dbs st hp).1]
    rfl
  refine ⟨?_, ?_, ?_, ?_, ?_, ?_, ?_⟩
  · cases cmd with
    | rejected => exact ⟨fun _ => Or.inl rfl, fun _ => by rw [main_rejected]; exact h2.1⟩
    | help =>
      refine ⟨fun h => absurd (by rw [main_help]; exact h0) h, ?_⟩
      rintro (h | ⟨flags, h, _⟩) <;> exact absurd h (by simp)
    | parsed flags =>
      rcases key flags with ⟨hc, he⟩ | ⟨hc, he⟩
      · exact ⟨fun _ => Or.inr ⟨flags, rfl, hc⟩, fun _ => by rw [he]; decide⟩
      · refine ⟨fun h => absurd he h, ?_⟩
        rintro (h | ⟨f, hf, hcf⟩)
        · exact absurd h (by simp)
        · cases hf
          exact absurd hcf hc
  · rintro rfl
    rw [main_rejected]
    exact h2.2
  · rintro rfl
    rw [main_help]
    exact h0
  · rintro flags rfl hc
    rcases key flags with ⟨_, he⟩ | ⟨hn, _⟩
    · exact he
    · exact absurd hc hn
  · rintro flags rfl hc ha h
    rw [(main_lists_differ ext flags w hc ha h).1]
    exact h0
  · rintro flags x st rfl hp
    exact hok flags x st hp
  · rintro flags d1 d2 d post st err rfl hp _
    exact hok flags _ st hp

/-- Witness for C7, amended: a comparison that fails to connect exits with
status 0. -/
theorem nonzero_exit_iff_witness :
    exitStatus (main (scripted (fun _ => Except.ok [])
        (fun _ => some (GoError.ext "connection refused")) (fun _ => Except.ok true))
      (CommandLine.parsed { url2 := "root@127.0.0.1:4001", databases := "a" }) 0).1 = 0 :=
  (nonzero_exit_iff
    (scripted (fun _ => Except.ok []) (fun _ => some (GoError.ext "connection refused"))
      (fun _ => Except.ok true))
    (CommandLine.parsed { url2 := "root@127.0.0.1:4001", databases := "a" }) 0).2.2.2.2.2.2
    { url2 := "root@127.0.0.1:4001", databases := "a" }
    { user := "root", host := "127.0.0.1", port := 4000 }
    { user := "root", host := "127.0.0.1", port := 4001 } "a" []
    { world := 0, trace := [] } (GoError.ext "connection refused") rfl rfl
    (Or.inr (Or.inr (Or.inl ⟨0, 1, 1, 2, 2, rfl, rfl, rfl⟩)))

end DiffCmd
